import Mathlib

/-! XL parse trees: structural matching and rewrite parameter extraction.

Shallow embedding of

* `xl2/xlr/tree.h`: the `Tree` node classes, the safe casts and the
  `TreeMatch` action;
* `xlr/compiler-parm.cpp`: the `ParameterList` action collecting the
  parameters on the left of a rewrite.

Pointers to tree nodes are modelled by the nodes themselves, a nullable
pointer by an `Option`. Mutable members of an action (`test`, `defined`,
`parameters`, `returned`) are threaded explicitly: every handler takes the
action and returns its result together with the action after the call.
-/

namespace XL

/-! ## Basic types -/

abbrev text := String
abbrev ulong := Nat
abbrev tree_position := ulong
abbrev longlong := Int

/-- A C++ `double`, held as its IEEE-754 binary64 bit pattern (the low 64 bits
of `bits`): 1 sign bit, 11 exponent bits, 52 fraction bits. -/
structure double where
  bits : Nat
deriving DecidableEq, Repr

/-- Not-a-number: exponent all ones and a non-zero fraction. -/
def double.isNaN (d : double) : Bool :=
  (d.bits / 2 ^ 52) % 2 ^ 11 == 2 ^ 11 - 1 && d.bits % 2 ^ 52 != 0

/-- Positive or negative zero: everything but the sign bit is clear. -/
def double.isZero (d : double) : Bool :=
  d.bits % 2 ^ 63 == 0

/-- The C++ `==` on two doubles (IEEE-754 comparison): a NaN compares unequal
to everything, the two zeros compare equal, any other two values compare
equal when their bit patterns are the same. -/
def double.eq (a b : double) : Bool :=
  !a.isNaN && !b.isNaN &&
    (a.bits % 2 ^ 64 == b.bits % 2 ^ 64 || (a.isZero && b.isZero))

/-- The kinds of tree that compose an XL parse tree (`enum kind`). -/
inductive kind
  | INTEGER | REAL | TEXT | NAME      -- leaf nodes
  | BLOCK | PREFIX | POSTFIX | INFIX  -- non-leaf nodes
deriving DecidableEq, Repr

/-- The value of an enumerator of `kind`. -/
def kind.toNat : kind → Nat
  | .INTEGER => 0 | .REAL => 1 | .TEXT => 2 | .NAME => 3
  | .BLOCK => 4 | .PREFIX => 5 | .POSTFIX => 6 | .INFIX => 7

/-- The conversion `kind(n)` of an integer in `0..7`. -/
def kind.fromNat : Nat → kind
  | 0 => .INTEGER | 1 => .REAL | 2 => .TEXT | 3 => .NAME
  | 4 => .BLOCK | 5 => .PREFIX | 6 => .POSTFIX | _ => .INFIX

/-! ## The tree classes -/

/-- The XL tree nodes. Each constructor takes the arguments of the C++
constructor of the class of the same name, in the same order. -/
inductive Tree
  | Integer (value : longlong) (pos : tree_position)
  | Real (value : double) (pos : tree_position)
  | Text (value : text) (opening closing : text) (pos : tree_position)
  | Name (value : text) (pos : tree_position)
  | Block (child : Tree) (opening closing : text) (pos : tree_position)
  | Prefix (left right : Tree) (pos : tree_position)
  | Postfix (left right : Tree) (pos : tree_position)
  | Infix (name : text) (left right : Tree) (pos : tree_position)
deriving DecidableEq, Repr

/-- `Tree::NOWHERE = ~0UL`. -/
def Tree.NOWHERE : ulong := 2 ^ 64 - 1
/-- `Tree::KINDBITS`. -/
def Tree.KINDBITS : Nat := 3
/-- `Tree::KINDMASK`. -/
def Tree.KINDMASK : Nat := 7

/-- The `kind` each class passes to the base constructor `Tree(k, pos)`. -/
def Tree.ctorKind : Tree → kind
  | .Integer .. => .INTEGER
  | .Real .. => .REAL
  | .Text .. => .TEXT
  | .Name .. => .NAME
  | .Block .. => .BLOCK
  | .Prefix .. => .PREFIX
  | .Postfix .. => .POSTFIX
  | .Infix .. => .INFIX

/-- The position each class passes to the base constructor `Tree(k, pos)`. -/
def Tree.ctorPos : Tree → tree_position
  | .Integer _ pos => pos
  | .Real _ pos => pos
  | .Text _ _ _ pos => pos
  | .Name _ pos => pos
  | .Block _ _ _ pos => pos
  | .Prefix _ _ pos => pos
  | .Postfix _ _ pos => pos
  | .Infix _ _ _ pos => pos

/-- The member `tag`, as initialised by `Tree(k, pos)`:
`tag((pos << KINDBITS) | k)` on a 64-bit `ulong`. -/
def Tree.tag (t : Tree) : ulong :=
  ((t.ctorPos <<< Tree.KINDBITS) ||| t.ctorKind.toNat) % 2 ^ 64

/-- `Tree::Kind()`. -/
def Tree.Kind (t : Tree) : kind := kind.fromNat (t.tag &&& Tree.KINDMASK)

/-- `Tree::Position()`. -/
def Tree.Position (t : Tree) : tree_position := t.tag >>> Tree.KINDBITS

/-- `Tree::IsLeaf()`. -/
def Tree.IsLeaf (t : Tree) : Bool := t.Kind.toNat ≤ kind.NAME.toNat

/-- `Tree::IsConstant()`. -/
def Tree.IsConstant (t : Tree) : Bool := t.Kind.toNat ≤ kind.TEXT.toNat

/-- View of a node of class `Integer`. -/
structure Integer where
  value : longlong
  pos : tree_position
deriving DecidableEq, Repr

/-- View of a node of class `Real`. -/
structure Real where
  value : double
  pos : tree_position
deriving DecidableEq, Repr

/-- View of a node of class `Text`. -/
structure Text where
  value : text
  opening : text
  closing : text
  pos : tree_position
deriving DecidableEq, Repr

/-- View of a node of class `Name`. -/
structure Name where
  value : text
  pos : tree_position
deriving DecidableEq, Repr

/-- View of a node of class `Block`. -/
structure Block where
  child : Tree
  opening : text
  closing : text
  pos : tree_position
deriving DecidableEq, Repr

/-- View of a node of class `Prefix`. -/
structure Prefix where
  left : Tree
  right : Tree
  pos : tree_position
deriving DecidableEq, Repr

/-- View of a node of class `Postfix`. -/
structure Postfix where
  left : Tree
  right : Tree
  pos : tree_position
deriving DecidableEq, Repr

/-- View of a node of class `Infix`. -/
structure Infix where
  name : text
  left : Tree
  right : Tree
  pos : tree_position
deriving DecidableEq, Repr

/-- Implicit conversion `Integer *` to `Tree *`. -/
def Integer.toTree (n : Integer) : Tree := .Integer n.value n.pos
/-- Implicit conversion `Real *` to `Tree *`. -/
def Real.toTree (n : Real) : Tree := .Real n.value n.pos
/-- Implicit conversion `Text *` to `Tree *`. -/
def Text.toTree (n : Text) : Tree := .Text n.value n.opening n.closing n.pos
/-- Implicit conversion `Name *` to `Tree *`. -/
def Name.toTree (n : Name) : Tree := .Name n.value n.pos
/-- Implicit conversion `Block *` to `Tree *`. -/
def Block.toTree (n : Block) : Tree := .Block n.child n.opening n.closing n.pos
/-- Implicit conversion `Prefix *` to `Tree *`. -/
def Prefix.toTree (n : Prefix) : Tree := .Prefix n.left n.right n.pos
/-- Implicit conversion `Postfix *` to `Tree *`. -/
def Postfix.toTree (n : Postfix) : Tree := .Postfix n.left n.right n.pos
/-- Implicit conversion `Infix *` to `Tree *`. -/
def Infix.toTree (n : Infix) : Tree := .Infix n.name n.left n.right n.pos

/-! ## Safe casts

`this && Kind() == K` is decided on the class of the node; `Tree.Kind_eq_ctorKind`
below shows that the kind read back from the tag is the kind of the class. -/

/-- `Tree::AsInteger()`: a pointer to an Integer or NULL. -/
def Tree.AsInteger : Option Tree → Option XL.Integer
  | some (.Integer value pos) => some ⟨value, pos⟩
  | _ => none

/-- `Tree::AsReal()`: a pointer to a Real or NULL. -/
def Tree.AsReal : Option Tree → Option XL.Real
  | some (.Real value pos) => some ⟨value, pos⟩
  | _ => none

/-- `Tree::AsText()`: a pointer to a Text or NULL. -/
def Tree.AsText : Option Tree → Option XL.Text
  | some (.Text value opening closing pos) => some ⟨value, opening, closing, pos⟩
  | _ => none

/-- `Tree::AsName()`: a pointer to a Name or NULL. -/
def Tree.AsName : Option Tree → Option XL.Name
  | some (.Name value pos) => some ⟨value, pos⟩
  | _ => none

/-- `Tree::AsBlock()`: a pointer to a Block or NULL. -/
def Tree.AsBlock : Option Tree → Option XL.Block
  | some (.Block child opening closing pos) => some ⟨child, opening, closing, pos⟩
  | _ => none

/-- `Tree::AsInfix()`: a pointer to an Infix or NULL. -/
def Tree.AsInfix : Option Tree → Option XL.Infix
  | some (.Infix name left right pos) => some ⟨name, left, right, pos⟩
  | _ => none

/-- `Tree::AsPrefix()`: a pointer to a Prefix or NULL. -/
def Tree.AsPrefix : Option Tree → Option XL.Prefix
  | some (.Prefix left right pos) => some ⟨left, right, pos⟩
  | _ => none

/-- `Tree::AsPostfix()`: a pointer to a Postfix or NULL. -/
def Tree.AsPostfix : Option Tree → Option XL.Postfix
  | some (.Postfix left right pos) => some ⟨left, right, pos⟩
  | _ => none

/-! ## Tree shape equality comparison (`struct TreeMatch`) -/

/-- The action `TreeMatch`: its only member is the cursor `test`. -/
structure TreeMatch where
  test : Option Tree
deriving DecidableEq, Repr

/-- Result of running a `TreeMatch` handler: the returned `Tree *` and the
action after the call. -/
abbrev TreeMatch.Result := Option Tree × TreeMatch

/-- `TreeMatch::DoInteger`. -/
def TreeMatch.DoInteger (what : Integer) (self : TreeMatch) : TreeMatch.Result :=
  match Tree.AsInteger self.test with
  | some it => if it.value = what.value then (some what.toTree, self) else (none, self)
  | none => (none, self)

/-- `TreeMatch::DoReal`. -/
def TreeMatch.DoReal (what : Real) (self : TreeMatch) : TreeMatch.Result :=
  match Tree.AsReal self.test with
  | some rt => if rt.value.eq what.value then (some what.toTree, self) else (none, self)
  | none => (none, self)

/-- `TreeMatch::DoText`. -/
def TreeMatch.DoText (what : Text) (self : TreeMatch) : TreeMatch.Result :=
  match Tree.AsText self.test with
  | some tt => if tt.value = what.value then (some what.toTree, self) else (none, self)
  | none => (none, self)

/-- `TreeMatch::DoName`. -/
def TreeMatch.DoName (what : Name) (self : TreeMatch) : TreeMatch.Result :=
  match Tree.AsName self.test with
  | some nt => if nt.value = what.value then (some what.toTree, self) else (none, self)
  | none => (none, self)

/-- `TreeMatch::DoBlock`. `Do_child` is the call `what->child->Do(...)`. -/
def TreeMatch.DoBlock (Do_child : TreeMatch → TreeMatch.Result)
    (what : Block) (self : TreeMatch) : TreeMatch.Result :=
  match Tree.AsBlock self.test with
  | some bt =>
    if bt.opening = what.opening ∧ bt.closing = what.closing then
      let self := { self with test := some bt.child }
      let (br, self) := Do_child self
      let self := { self with test := some bt.toTree }
      if br.isSome then (br, self) else (none, self)
    else (none, self)
  | none => (none, self)

/-- `TreeMatch::DoInfix`. `Do_left` and `Do_right` are the calls
`what->left->Do(...)` and `what->right->Do(...)`. -/
def TreeMatch.DoInfix (Do_left Do_right : TreeMatch → TreeMatch.Result)
    (what : Infix) (self : TreeMatch) : TreeMatch.Result :=
  match Tree.AsInfix self.test with
  | some it =>
    if it.name = what.name then
      let self := { self with test := some it.left }
      let (lr, self) := Do_left self
      let self := { self with test := some it.toTree }
      if lr.isNone then (none, self) else
      let self := { self with test := some it.right }
      let (rr, self) := Do_right self
      let self := { self with test := some it.toTree }
      if rr.isNone then (none, self) else
      (some what.toTree, self)
    else (none, self)
  | none => (none, self)

/-- `TreeMatch::DoPrefix`. -/
def TreeMatch.DoPrefix (Do_left Do_right : TreeMatch → TreeMatch.Result)
    (what : Prefix) (self : TreeMatch) : TreeMatch.Result :=
  match Tree.AsPrefix self.test with
  | some pt =>
    let self := { self with test := some pt.left }
    let (lr, self) := Do_left self
    let self := { self with test := some pt.toTree }
    if lr.isNone then (none, self) else
    let self := { self with test := some pt.right }
    let (rr, self) := Do_right self
    let self := { self with test := some pt.toTree }
    if rr.isNone then (none, self) else
    (some what.toTree, self)
  | none => (none, self)

/-- `TreeMatch::DoPostfix`. -/
def TreeMatch.DoPostfix (Do_left Do_right : TreeMatch → TreeMatch.Result)
    (what : Postfix) (self : TreeMatch) : TreeMatch.Result :=
  match Tree.AsPostfix self.test with
  | some pt =>
    let self := { self with test := some pt.right }
    let (rr, self) := Do_right self
    let self := { self with test := some pt.toTree }
    if rr.isNone then (none, self) else
    let self := { self with test := some pt.left }
    let (lr, self) := Do_left self
    let self := { self with test := some pt.toTree }
    if lr.isNone then (none, self) else
    (some what.toTree, self)
  | none => (none, self)

/-- `TreeMatch::Do(Tree *what)`, the bare default of the action. -/
def TreeMatch.Do (_what : Tree) (self : TreeMatch) : TreeMatch.Result :=
  (none, self)

/-- Modelled from the spec: `Tree::Do(Action *)` is declared in `tree.h` but its
body is not part of the sources. Section 4.2: the protocol dispatches on the
kind of the node to one of the eight kind-specific handlers, a total function
over all eight kinds. This is the instance for the action `TreeMatch`. -/
def Tree.Do : Tree → TreeMatch → TreeMatch.Result
  | .Integer value pos, action => action.DoInteger ⟨value, pos⟩
  | .Real value pos, action => action.DoReal ⟨value, pos⟩
  | .Text value opening closing pos, action => action.DoText ⟨value, opening, closing, pos⟩
  | .Name value pos, action => action.DoName ⟨value, pos⟩
  | .Block child opening closing pos, action =>
      action.DoBlock (Tree.Do child) ⟨child, opening, closing, pos⟩
  | .Prefix left right pos, action =>
      action.DoPrefix (Tree.Do left) (Tree.Do right) ⟨left, right, pos⟩
  | .Postfix left right pos, action =>
      action.DoPostfix (Tree.Do left) (Tree.Do right) ⟨left, right, pos⟩
  | .Infix name left right pos, action =>
      action.DoInfix (Tree.Do left) (Tree.Do right) ⟨name, left, right, pos⟩

/-- `Match(pattern, candidate)`: a `TreeMatch` constructed with the pattern and
applied to the candidate returns a non-null result. -/
def Match (pattern candidate : Tree) : Bool :=
  (candidate.Do (TreeMatch.mk (some pattern))).1.isSome

/-! ## Structural properties used to state the claims about `Match` -/

/-- Some `Real` node of the tree holds a NaN. -/
def Tree.hasNaN : Tree → Bool
  | .Integer .. => false
  | .Real value _ => value.isNaN
  | .Text .. => false
  | .Name .. => false
  | .Block child _ _ _ => child.hasNaN
  | .Prefix left right _ => left.hasNaN || right.hasNaN
  | .Postfix left right _ => left.hasNaN || right.hasNaN
  | .Infix _ left right _ => left.hasNaN || right.hasNaN

/-- The tree with the source position of every node replaced by 0: two trees
differ only in the source positions of their nodes exactly when they have the
same image. -/
def Tree.erasePositions : Tree → Tree
  | .Integer value _ => .Integer value 0
  | .Real value _ => .Real value 0
  | .Text value opening closing _ => .Text value opening closing 0
  | .Name value _ => .Name value 0
  | .Block child opening closing _ => .Block child.erasePositions opening closing 0
  | .Prefix left right _ => .Prefix left.erasePositions right.erasePositions 0
  | .Postfix left right _ => .Postfix left.erasePositions right.erasePositions 0
  | .Infix name left right _ => .Infix name left.erasePositions right.erasePositions 0

/-! ## Parameters on the left of a rewrite (`struct ParameterList`)

The header `compiler-parm.h`, the compiler, the context and the error
reporting are not part of the sources; what `compiler-parm.cpp` uses of them
is declared here. -/

/-- An `llvm_type`: a nullable pointer to a machine type descriptor, compared
by address. -/
abbrev llvm_type := Option Nat

/-- Modelled from the spec: the enclosing context, of which the extractor uses
the single read-only query `Bound(name)`, "is this name already declared at the
enclosing scope" (section 6). -/
structure Context where
  Bound : Name → Bool

/-- Modelled from the spec: the compiler, of which the extractor uses the
generic "any tree" type `treePtrTy` and the read-only query
`MachineType(context, typeExpressionTree)` giving an opaque handle
(sections 4.4 and 6). -/
structure Compiler where
  treePtrTy : llvm_type
  MachineType : Context → Tree → llvm_type

/-- Modelled from the spec: a `Parameter` is a pair of a name node and a
machine-type handle (section 3); `Parameter(what, type)` builds it. -/
structure Parameter where
  name : Name
  type : llvm_type
deriving DecidableEq, Repr

/-- A diagnostic: message template and offending tree. -/
structure Error where
  message : text
  arg : Tree
deriving DecidableEq, Repr

/-- Modelled from the spec: the members of `ParameterList` (section 4.4):
`defined`, the head shape; `parameters`, the ordered list; `returned`, the
optional declared return type; `context` and `compiler`, read-only. `errors`
is the log of the diagnostics collaborator, threaded with the action. -/
structure ParameterList where
  compiler : Compiler
  context : Context
  defined : Option Tree
  parameters : List Parameter
  returned : llvm_type
  errors : List Error

/-- Modelled from the spec: the initial extractor state: head unset, no
parameters, no return type (section 4.4); nothing reported yet. -/
def ParameterList.init (compiler : Compiler) (context : Context) : ParameterList :=
  { compiler := compiler, context := context, defined := none, parameters := [],
    returned := none, errors := [] }

/-- Modelled from the spec: `Ooops(message, tree)` reports a structured error
keyed by message template and offending tree to the diagnostics collaborator
and returns to its caller; it never aborts (section 6). -/
def ParameterList.Ooops (m : text) (a : Tree) (self : ParameterList) : ParameterList :=
  { self with errors := self.errors ++ [⟨m, a⟩] }

/-- The C library `isalpha` in the "C" locale. -/
def isalpha (c : Char) : Bool := c.isAlpha

/-- The `for` loop of `EnterName` over the parameter list: `some b` when the
loop body executes `return b` (after reporting the conflict when `b` is
false), `none` when the loop runs to the end. -/
def ParameterList.EnterName.loop (treePtrTy type : llvm_type) (name : text) :
    List Parameter → Option Bool
  | [] => none
  | it :: rest =>
    if it.name.value = name then
      if type = treePtrTy ∨ type = it.type then some true else some false
    else ParameterList.EnterName.loop treePtrTy type name rest

/-- `ParameterList::EnterName`: enter a name in the parameter list. -/
def ParameterList.EnterName (what : Name) (type : llvm_type) (globalCheck : Bool)
    (self : ParameterList) : Bool × ParameterList :=
  -- We only allow names here, not symbols (bug #154)
  let self :=
    if what.value.length = 0 ∨ !isalpha (what.value.get 0) then
      self.Ooops "The pattern variable $1 is not a name" what.toTree
    else self
  -- Check if the name already exists in parameter list, e.g. in A+A
  let name := what.value
  match ParameterList.EnterName.loop self.compiler.treePtrTy type name self.parameters with
  | some true => (true, self)
  | some false => (false, self.Ooops "Conflicting types for $1" what.toTree)
  | none =>
    -- Check if the name already exists in context, e.g. false
    if globalCheck ∧ self.context.Bound what then (true, self)
    else
      -- We need to record a new parameter
      (true, { self with parameters := self.parameters ++ [Parameter.mk what type] })

/-- `ParameterList::DoInteger`: nothing to do for leaves. -/
def ParameterList.DoInteger (_what : Integer) (self : ParameterList) : Bool × ParameterList :=
  (true, self)

/-- `ParameterList::DoReal`: nothing to do for leaves. -/
def ParameterList.DoReal (_what : Real) (self : ParameterList) : Bool × ParameterList :=
  (true, self)

/-- `ParameterList::DoText`: nothing to do for leaves. -/
def ParameterList.DoText (_what : Text) (self : ParameterList) : Bool × ParameterList :=
  (true, self)

/-- `ParameterList::DoName`: identify the named parameters being defined in
the shape. -/
def ParameterList.DoName (what : Name) (self : ParameterList) : Bool × ParameterList :=
  if self.defined.isNone then
    -- The first name we see must match exactly, e.g. sin in sin X
    (true, { self with defined := some what.toTree })
  else
    -- We need to record a new parameter, type is Tree * by default
    self.EnterName what self.compiler.treePtrTy true

/-- `ParameterList::DoBlock`: parameters may be in a block, we just look
inside. `Do_child` is the call `what->child->Do(this)`. -/
def ParameterList.DoBlock (Do_child : ParameterList → Bool × ParameterList)
    (_what : Block) (self : ParameterList) : Bool × ParameterList :=
  Do_child self

/-- `ParameterList::DoInfix`. `Do_left` and `Do_right` are the calls
`what->left->Do(this)` and `what->right->Do(this)`. -/
def ParameterList.DoInfix (Do_left Do_right : ParameterList → Bool × ParameterList)
    (what : Infix) (self : ParameterList) : Bool × ParameterList :=
  -- Check if we match a type, e.g. 2 vs. K : integer
  if what.name = ":" then
    -- Check the variable name, e.g. K in example above
    match Tree.AsName (some what.left) with
    | some varName =>
      -- Enter a name in the parameter list with adequate machine type
      let mtype := self.compiler.MachineType self.context what.right
      self.EnterName varName mtype false
    | none =>
      -- We are specifying the type of the expression, e.g. (X+Y):integer
      if self.returned.isSome ∨ self.defined.isSome then
        (false, self.Ooops "Cannot specify type of $1" what.left)
      else
        -- Remember the specified returned value
        let self := { self with returned := self.compiler.MachineType self.context what.right }
        -- Keep going with the left-hand side
        Do_left self
  else
    -- If this is the first one, this is what we define
    let self := if self.defined.isNone then { self with defined := some what.toTree } else self
    -- Otherwise, test left and right
    let (l, self) := Do_left self
    if !l then (false, self) else
    let (r, self) := Do_right self
    if !r then (false, self) else
    (true, self)

/-- `ParameterList::DoPrefix`: for prefix expressions, simply test left then
right. -/
def ParameterList.DoPrefix (Do_left Do_right : ParameterList → Bool × ParameterList)
    (_what : Prefix) (self : ParameterList) : Bool × ParameterList :=
  -- In if X then Y, then is defined first, but we want if
  let defined_infix := Tree.AsInfix self.defined
  let self := if defined_infix.isSome then { self with defined := none } else self
  let (l, self) := Do_left self
  if !l then (false, self) else
  let (r, self) := Do_right self
  if !r then (false, self) else
  let self :=
    if self.defined.isNone ∧ defined_infix.isSome then
      { self with defined := defined_infix.map Infix.toTree }
    else self
  (true, self)

/-- `ParameterList::DoPostfix`: for postfix expressions, simply test right,
then left. -/
def ParameterList.DoPostfix (Do_left Do_right : ParameterList → Bool × ParameterList)
    (_what : Postfix) (self : ParameterList) : Bool × ParameterList :=
  -- Note that ordering is reverse compared to prefix, so that
  -- the defined names is set correctly
  let (r, self) := Do_right self
  if !r then (false, self) else
  let (l, self) := Do_left self
  if !l then (false, self) else
  (true, self)

/-- `ParameterList::Signature`: extract the types from the parameter list,
pushing them at the back of `signature`. -/
def ParameterList.Signature (signature : List llvm_type) (self : ParameterList) :
    List llvm_type × ParameterList :=
  (self.parameters.foldl (fun sig p => sig ++ [p.type]) signature, self)

/-- Modelled from the spec: `Tree::Do` applied to a `ParameterList`; its body
is not part of the sources. Section 4.2: the protocol dispatches on the kind of
the node to one of the eight kind-specific handlers. -/
def Tree.DoParameters : Tree → ParameterList → Bool × ParameterList
  | .Integer value pos, action => action.DoInteger ⟨value, pos⟩
  | .Real value pos, action => action.DoReal ⟨value, pos⟩
  | .Text value opening closing pos, action => action.DoText ⟨value, opening, closing, pos⟩
  | .Name value pos, action => action.DoName ⟨value, pos⟩
  | .Block child opening closing pos, action =>
      action.DoBlock (Tree.DoParameters child) ⟨child, opening, closing, pos⟩
  | .Prefix left right pos, action =>
      action.DoPrefix (Tree.DoParameters left) (Tree.DoParameters right) ⟨left, right, pos⟩
  | .Postfix left right pos, action =>
      action.DoPostfix (Tree.DoParameters left) (Tree.DoParameters right) ⟨left, right, pos⟩
  | .Infix name left right pos, action =>
      action.DoInfix (Tree.DoParameters left) (Tree.DoParameters right) ⟨name, left, right, pos⟩

/-- A name a pattern variable may have: not empty and starting with an
alphabetic character. -/
def alphabetic (value : text) : Bool :=
  value.length != 0 && isalpha (value.get 0)

/-- The statements of `EnterName` that follow its first one (the check that
the name is alphabetic): the search of the parameter list, the global check
and the recording of a new parameter. -/
def ParameterList.EnterName.rest (what : Name) (type : llvm_type) (globalCheck : Bool)
    (self : ParameterList) : Bool × ParameterList :=
  match ParameterList.EnterName.loop self.compiler.treePtrTy type what.value self.parameters with
  | some true => (true, self)
  | some false => (false, self.Ooops "Conflicting types for $1" what.toTree)
  | none =>
    if globalCheck ∧ self.context.Bound what then (true, self)
    else (true, { self with parameters := self.parameters ++ [Parameter.mk what type] })

/-! ## Type matching (`basics.cpp`)

`basics.h`, the evaluator and the class `Quote` are not part of the sources;
what the type checks use of them is declared here. A `dynamic_cast` to a node
class is rendered by the safe cast to that class, and the comparison of two
node pointers by the comparison of the nodes. -/

/-- Modelled from the spec: what the type-check predicates use of the runtime
(section 4.5): `Run`, the forced evaluation `value->Run(stack)` of a
value-producing tree on an execution stack (NULL when it yields nothing);
`true_name` and `false_name`, the two reserved boolean sentinel names;
`Quote_Opening` and `Quote_Closing`, the delimiter pair `Quote().Opening()`
and `Quote().Closing()` of a single-character literal. -/
structure Runtime (Stack : Type) where
  Run : Stack → Tree → Option Tree
  true_name : Tree
  false_name : Tree
  Quote_Opening : text
  Quote_Closing : text

/-- `BooleanType::TypeCheck`: check if argument can be evaluated as a boolean
value (true/false). -/
def BooleanType.TypeCheck {Stack : Type} (rt : Runtime Stack) (_stack : Stack)
    (value : Tree) : Option Tree :=
  if value = rt.true_name ∨ value = rt.false_name then some value
  else none

/-- `IntegerType::TypeCheck`: check if argument can be evaluated as an
integer. -/
def IntegerType.TypeCheck {Stack : Type} (rt : Runtime Stack) (stack : Stack)
    (value : Tree) : Option Tree :=
  match Tree.AsInteger (rt.Run stack value) with
  | some it => some it.toTree
  | none => none

/-- `RealType::TypeCheck`: check if argument can be evaluated as a real. -/
def RealType.TypeCheck {Stack : Type} (rt : Runtime Stack) (stack : Stack)
    (value : Tree) : Option Tree :=
  match Tree.AsReal (rt.Run stack value) with
  | some r => some r.toTree
  | none => none

/-- `TextType::TypeCheck`: check if argument can be evaluated as a text. -/
def TextType.TypeCheck {Stack : Type} (rt : Runtime Stack) (stack : Stack)
    (value : Tree) : Option Tree :=
  match Tree.AsText (rt.Run stack value) with
  | some tt =>
    if tt.opening ≠ rt.Quote_Opening ∨ tt.closing ≠ rt.Quote_Closing then some tt.toTree
    else none
  | none => none

/-- `CharacterType::TypeCheck`: check if argument can be evaluated as a
character. -/
def CharacterType.TypeCheck {Stack : Type} (rt : Runtime Stack) (stack : Stack)
    (value : Tree) : Option Tree :=
  match Tree.AsText (rt.Run stack value) with
  | some tt =>
    if tt.opening = rt.Quote_Opening ∧ tt.closing = rt.Quote_Closing then some tt.toTree
    else none
  | none => none

/-! # Theorems -/

/-! ## The kind read back from the tag -/

theorem Tree.shiftLeft_or_kind (pos k : Nat) (hk : k < 8) :
    (pos <<< Tree.KINDBITS) ||| k = 8 * pos + k := by
  have h := Nat.mul_add_lt_is_or (show k < 2 ^ 3 by simpa using hk) pos
  simp only [Tree.KINDBITS, Nat.shiftLeft_eq]
  rw [Nat.mul_comm pos (2 ^ 3), ← h]

theorem Tree.tag_and_KINDMASK (pos k : Nat) (hk : k < 8) :
    (((pos <<< Tree.KINDBITS) ||| k) % 2 ^ 64) &&& Tree.KINDMASK = k := by
  have h2 : ∀ x : Nat, x &&& 7 = x % 8 := fun x => Nat.and_pow_two_sub_one_eq_mod x 3
  rw [Tree.shiftLeft_or_kind pos k hk, Tree.KINDMASK, h2]
  omega

theorem Tree.Kind_eq_ctorKind (t : Tree) : t.Kind = t.ctorKind := by
  unfold Tree.Kind Tree.tag
  rw [Tree.tag_and_KINDMASK _ _ (by cases t.ctorKind <;> decide)]
  cases t.ctorKind <;> rfl

/-! ## The cursor of `TreeMatch` -/

theorem TreeMatch.DoInteger_snd (what : Integer) (self : TreeMatch) :
    (self.DoInteger what).2 = self := by
  unfold TreeMatch.DoInteger
  split <;> [split_ifs <;> rfl; rfl]

theorem TreeMatch.DoReal_snd (what : Real) (self : TreeMatch) :
    (self.DoReal what).2 = self := by
  unfold TreeMatch.DoReal
  split <;> [split_ifs <;> rfl; rfl]

theorem TreeMatch.DoText_snd (what : Text) (self : TreeMatch) :
    (self.DoText what).2 = self := by
  unfold TreeMatch.DoText
  split <;> [split_ifs <;> rfl; rfl]

theorem TreeMatch.DoName_snd (what : Name) (self : TreeMatch) :
    (self.DoName what).2 = self := by
  unfold TreeMatch.DoName
  split <;> [split_ifs <;> rfl; rfl]

theorem TreeMatch.DoBlock_snd (f : TreeMatch → TreeMatch.Result) (what : Block)
    (self : TreeMatch) : (self.DoBlock f what).2 = self := by
  obtain ⟨test⟩ := self
  rcases test with _ | t
  · simp [TreeMatch.DoBlock, Tree.AsBlock]
  · cases t <;> simp [TreeMatch.DoBlock, Tree.AsBlock, Block.toTree]
    split_ifs <;> rfl

theorem TreeMatch.DoInfix_snd (f g : TreeMatch → TreeMatch.Result) (what : Infix)
    (self : TreeMatch) : (self.DoInfix f g what).2 = self := by
  obtain ⟨test⟩ := self
  rcases test with _ | t
  · simp [TreeMatch.DoInfix, Tree.AsInfix]
  · cases t <;> simp [TreeMatch.DoInfix, Tree.AsInfix, Infix.toTree]
    split_ifs <;> rfl

theorem TreeMatch.DoPrefix_snd (f g : TreeMatch → TreeMatch.Result) (what : Prefix)
    (self : TreeMatch) : (self.DoPrefix f g what).2 = self := by
  obtain ⟨test⟩ := self
  rcases test with _ | t
  · simp [TreeMatch.DoPrefix, Tree.AsPrefix]
  · cases t <;> simp [TreeMatch.DoPrefix, Tree.AsPrefix, Prefix.toTree]
    split_ifs <;> rfl

theorem TreeMatch.DoPostfix_snd (f g : TreeMatch → TreeMatch.Result) (what : Postfix)
    (self : TreeMatch) : (self.DoPostfix f g what).2 = self := by
  obtain ⟨test⟩ := self
  rcases test with _ | t
  · simp [TreeMatch.DoPostfix, Tree.AsPostfix]
  · cases t <;> simp [TreeMatch.DoPostfix, Tree.AsPostfix, Postfix.toTree]
    split_ifs <;> rfl

theorem Tree.Do_snd (what : Tree) (action : TreeMatch) : (what.Do action).2 = action := by
  cases what <;> simp only [Tree.Do]
  · exact TreeMatch.DoInteger_snd _ _
  · exact TreeMatch.DoReal_snd _ _
  · exact TreeMatch.DoText_snd _ _
  · exact TreeMatch.DoName_snd _ _
  · exact TreeMatch.DoBlock_snd _ _ _
  · exact TreeMatch.DoPrefix_snd _ _ _ _
  · exact TreeMatch.DoPostfix_snd _ _ _ _
  · exact TreeMatch.DoInfix_snd _ _ _ _

/-! ## Equations for `Match` -/

theorem Match_Integer (p : Tree) (v : longlong) (pos : tree_position) :
    Match p (.Integer v pos) =
      match p with
      | .Integer v1 _ => decide (v1 = v)
      | _ => false := by
  cases p <;> simp [Match, Tree.Do, TreeMatch.DoInteger, Tree.AsInteger]
  split_ifs <;> simp_all

theorem Match_Real (p : Tree) (v : double) (pos : tree_position) :
    Match p (.Real v pos) =
      match p with
      | .Real v1 _ => v1.eq v
      | _ => false := by
  cases p <;> simp [Match, Tree.Do, TreeMatch.DoReal, Tree.AsReal]
  split_ifs <;> simp_all

theorem Match_Text (p : Tree) (v o cl : text) (pos : tree_position) :
    Match p (.Text v o cl pos) =
      match p with
      | .Text v1 _ _ _ => decide (v1 = v)
      | _ => false := by
  cases p <;> simp [Match, Tree.Do, TreeMatch.DoText, Tree.AsText]
  split_ifs <;> simp_all

theorem Match_Name (p : Tree) (v : text) (pos : tree_position) :
    Match p (.Name v pos) =
      match p with
      | .Name v1 _ => decide (v1 = v)
      | _ => false := by
  cases p <;> simp [Match, Tree.Do, TreeMatch.DoName, Tree.AsName]
  split_ifs <;> simp_all

theorem Match_Block (p c : Tree) (o cl : text) (pos : tree_position) :
    Match p (.Block c o cl pos) =
      match p with
      | .Block c1 o1 cl1 _ => decide (o1 = o) && decide (cl1 = cl) && Match c1 c
      | _ => false := by
  cases p <;> simp [Match, Tree.Do, TreeMatch.DoBlock, Tree.AsBlock]
  split_ifs <;> simp_all

theorem Match_Infix (p l r : Tree) (n : text) (pos : tree_position) :
    Match p (.Infix n l r pos) =
      match p with
      | .Infix n1 l1 r1 _ => decide (n1 = n) && Match l1 l && Match r1 r
      | _ => false := by
  cases p <;> simp [Match, Tree.Do, TreeMatch.DoInfix, Tree.AsInfix]
  split_ifs <;> simp_all [Option.isSome_iff_ne_none]

theorem Match_Prefix (p l r : Tree) (pos : tree_position) :
    Match p (.Prefix l r pos) =
      match p with
      | .Prefix l1 r1 _ => Match l1 l && Match r1 r
      | _ => false := by
  cases p <;> simp [Match, Tree.Do, TreeMatch.DoPrefix, Tree.AsPrefix]
  split_ifs <;> simp_all [Option.isSome_iff_ne_none]

theorem Match_Postfix (p l r : Tree) (pos : tree_position) :
    Match p (.Postfix l r pos) =
      match p with
      | .Postfix l1 r1 _ => Match l1 l && Match r1 r
      | _ => false := by
  cases p <;> simp [Match, Tree.Do, TreeMatch.DoPostfix, Tree.AsPostfix]
  split_ifs <;> simp_all [Option.isSome_iff_ne_none]

/-! ## Reflexivity, symmetry and positions -/

theorem double.eq_self (d : double) : d.eq d = !d.isNaN := by
  unfold double.eq
  cases d.isNaN <;> simp

theorem double.eq_comm (a b : double) : a.eq b = b.eq a := by
  unfold double.eq
  rw [Bool.and_comm (!a.isNaN) (!b.isNaN), Bool.and_comm a.isZero b.isZero]
  congr 2
  exact Bool.beq_comm

theorem Match_self (t : Tree) : Match t t = !t.hasNaN := by
  induction t with
  | Integer v pos => simp [Match_Integer, Tree.hasNaN]
  | Real v pos => simp [Match_Real, Tree.hasNaN, double.eq_self]
  | Text v o cl pos => simp [Match_Text, Tree.hasNaN]
  | Name v pos => simp [Match_Name, Tree.hasNaN]
  | Block c o cl pos ih => simp [Match_Block, Tree.hasNaN, ih]
  | Prefix l r pos ihl ihr => simp [Match_Prefix, Tree.hasNaN, ihl, ihr]
  | Postfix l r pos ihl ihr => simp [Match_Postfix, Tree.hasNaN, ihl, ihr]
  | Infix n l r pos ihl ihr => simp [Match_Infix, Tree.hasNaN, ihl, ihr]

theorem Match_comm (a b : Tree) : Match a b = Match b a := by
  induction a generalizing b with
  | Integer v pos => cases b <;> simp [Match_Integer, Match_Real, Match_Text, Match_Name, Match_Block, Match_Prefix, Match_Postfix, Match_Infix, eq_comm]
  | Real v pos => cases b <;> simp [Match_Integer, Match_Real, Match_Text, Match_Name, Match_Block, Match_Prefix, Match_Postfix, Match_Infix, double.eq_comm v]
  | Text v o cl pos => cases b <;> simp [Match_Integer, Match_Real, Match_Text, Match_Name, Match_Block, Match_Prefix, Match_Postfix, Match_Infix, eq_comm]
  | Name v pos => cases b <;> simp [Match_Integer, Match_Real, Match_Text, Match_Name, Match_Block, Match_Prefix, Match_Postfix, Match_Infix, eq_comm]
  | Block c o cl pos ih => cases b <;> simp [Match_Integer, Match_Real, Match_Text, Match_Name, Match_Block, Match_Prefix, Match_Postfix, Match_Infix, ih, eq_comm]
  | Prefix l r pos ihl ihr => cases b <;> simp [Match_Integer, Match_Real, Match_Text, Match_Name, Match_Block, Match_Prefix, Match_Postfix, Match_Infix, ihl, ihr]
  | Postfix l r pos ihl ihr => cases b <;> simp [Match_Integer, Match_Real, Match_Text, Match_Name, Match_Block, Match_Prefix, Match_Postfix, Match_Infix, ihl, ihr]
  | Infix n l r pos ihl ihr => cases b <;> simp [Match_Integer, Match_Real, Match_Text, Match_Name, Match_Block, Match_Prefix, Match_Postfix, Match_Infix, ihl, ihr, eq_comm]

theorem Match_erasePositions (p c : Tree) :
    Match p.erasePositions c.erasePositions = Match p c := by
  induction c generalizing p with
  | Integer v pos => cases p <;> simp [Match_Integer, Tree.erasePositions]
  | Real v pos => cases p <;> simp [Match_Real, Tree.erasePositions]
  | Text v o cl pos => cases p <;> simp [Match_Text, Tree.erasePositions]
  | Name v pos => cases p <;> simp [Match_Name, Tree.erasePositions]
  | Block c o cl pos ih => cases p <;> simp [Match_Block, Tree.erasePositions, ih]
  | Prefix l r pos ihl ihr => cases p <;> simp [Match_Prefix, Tree.erasePositions, ihl, ihr]
  | Postfix l r pos ihl ihr => cases p <;> simp [Match_Postfix, Tree.erasePositions, ihl, ihr]
  | Infix n l r pos ihl ihr => cases p <;> simp [Match_Infix, Tree.erasePositions, ihl, ihr]

/-! ## The parameter list of `ParameterList` -/

theorem ParameterList.EnterName.loop_eq_find (treePtrTy type : llvm_type) (name : text)
    (ps : List Parameter) :
    ParameterList.EnterName.loop treePtrTy type name ps =
      (ps.find? (fun p => decide (p.name.value = name))).map
        (fun p => decide (type = treePtrTy ∨ type = p.type)) := by
  induction ps with
  | nil => rfl
  | cons it rest ih =>
    by_cases h : it.name.value = name
    · by_cases h2 : type = treePtrTy ∨ type = it.type
      · simp [ParameterList.EnterName.loop, List.find?, h, h2]
      · simp only [ParameterList.EnterName.loop, List.find?, h, h2]
        simp [not_or.mp h2]
    · simp [ParameterList.EnterName.loop, List.find?, h, ih]

/-- Every walk is a sequence of the elementary updates of `EnterName` and of
assignments to `defined` and `returned` and of error reports: a reflexive and
transitive relation that contains these contains every walk. -/
theorem Tree.DoParameters_rel (R : ParameterList → ParameterList → Prop)
    (hrefl : ∀ s, R s s) (htrans : ∀ a b c, R a b → R b c → R a c)
    (hdef : ∀ (s : ParameterList) d, R s { s with defined := d })
    (hret : ∀ (s : ParameterList) r, R s { s with returned := r })
    (herr : ∀ (s : ParameterList) m a, R s (s.Ooops m a))
    (henter : ∀ (s : ParameterList) n t g, R s (s.EnterName n t g).2)
    (what : Tree) : ∀ self : ParameterList, R self (what.DoParameters self).2 := by
  induction what with
  | Integer v pos => exact fun self => hrefl self
  | Real v pos => exact fun self => hrefl self
  | Text v o cl pos => exact fun self => hrefl self
  | Name v pos =>
    intro self
    simp only [Tree.DoParameters, ParameterList.DoName]
    split_ifs
    · exact hdef _ _
    · exact henter _ _ _ _
  | Block c o cl pos ih => exact fun self => ih self
  | Prefix l r pos ihl ihr =>
    intro self
    simp only [Tree.DoParameters, ParameterList.DoPrefix]
    split_ifs
    all_goals first
      | exact ihl _
      | exact htrans _ _ _ (hdef _ _) (ihl _)
      | exact htrans _ _ _ (ihl _) (ihr _)
      | exact htrans _ _ _ (hdef _ _) (htrans _ _ _ (ihl _) (ihr _))
      | exact htrans _ _ _ (htrans _ _ _ (ihl _) (ihr _)) (hdef _ _)
      | exact htrans _ _ _ (hdef _ _) (htrans _ _ _ (htrans _ _ _ (ihl _) (ihr _)) (hdef _ _))
  | Postfix l r pos ihl ihr =>
    intro self
    simp only [Tree.DoParameters, ParameterList.DoPostfix]
    split_ifs
    all_goals first
      | exact ihr _
      | exact htrans _ _ _ (ihr _) (ihl _)
  | Infix n l r pos ihl ihr =>
    intro self
    simp only [Tree.DoParameters, ParameterList.DoInfix]
    by_cases hn : n = ":"
    · rw [if_pos hn]
      split
      · exact henter _ _ _ _
      · split_ifs
        · exact herr _ _ _
        · exact htrans _ _ _ (hret _ _) (ihl _)
    · rw [if_neg hn]
      split_ifs
      all_goals first
        | exact ihl _
        | exact htrans _ _ _ (hdef _ _) (ihl _)
        | exact htrans _ _ _ (ihl _) (ihr _)
        | exact htrans _ _ _ (hdef _ _) (htrans _ _ _ (ihl _) (ihr _))

theorem ParameterList.EnterName_parameters (what : Name) (type : llvm_type) (globalCheck : Bool)
    (self : ParameterList) :
    (self.EnterName what type globalCheck).2.parameters = self.parameters ∨
      (self.EnterName what type globalCheck).2.parameters =
        self.parameters ++ [Parameter.mk what type] := by
  unfold ParameterList.EnterName
  split_ifs <;> simp only [ParameterList.Ooops] <;> split <;> try split_ifs
  all_goals simp [ParameterList.Ooops]

theorem ParameterList.EnterName_isPrefix (what : Name) (type : llvm_type) (globalCheck : Bool)
    (self : ParameterList) :
    self.parameters <+: (self.EnterName what type globalCheck).2.parameters := by
  rcases ParameterList.EnterName_parameters what type globalCheck self with h | h
  · rw [h]
  · rw [h]; exact List.prefix_append _ _

theorem Tree.DoParameters_isPrefix (what : Tree) (self : ParameterList) :
    self.parameters <+: (what.DoParameters self).2.parameters :=
  Tree.DoParameters_rel (fun a b => a.parameters <+: b.parameters)
    (fun _ => List.prefix_refl _) (fun _ _ _ h1 h2 => h1.trans h2)
    (fun _ _ => List.prefix_refl _) (fun _ _ => List.prefix_refl _)
    (fun _ _ _ => List.prefix_refl _)
    (fun s n t g => ParameterList.EnterName_isPrefix n t g s) what self

/-! ## Claims about the structural matcher -/

/-- C1, counterexample: a `Real` holding a NaN (here the quiet NaN with bit
pattern `0x7FF8000000000000`) does not match itself, since `DoReal` compares
the two values with `==`. -/
theorem Match_refl_counterexample :
    Match (.Real ⟨0x7FF8000000000000⟩ Tree.NOWHERE) (.Real ⟨0x7FF8000000000000⟩ Tree.NOWHERE)
      = false := by
  decide

/-- C1, amended: matching a tree against itself succeeds exactly when no
`Real` node of the tree holds a NaN; in particular `Match(t, t)` is true for
every tree `t` without NaN. -/
theorem Match_refl_iff (t : Tree) : Match t t = true ↔ t.hasNaN = false := by
  rw [Match_self]
  cases t.hasNaN <;> simp

/-- C2, counterexample: the text `s` delimited by double quotes matches the
text `s` delimited by single quotes, although the delimiter pairs differ. -/
theorem Match_Text_delimiters_counterexample :
    Match (.Text "s" "\"" "\"" Tree.NOWHERE) (.Text "s" "'" "'" Tree.NOWHERE) = true ∧
      ("\"" : text) ≠ "'" := by
  decide

/-- C2, amended: against a `Text` candidate, `Match` succeeds exactly when the
pattern is a `Text` whose value equals the value of the candidate; the
delimiters of the two nodes are not compared, so that for every string `s` a
`Text s` delimited by double quotes does match a `Text s` delimited by single
quotes. -/
theorem Match_Text_iff :
    (∀ (p : Tree) (value opening closing : text) (pos : tree_position),
      Match p (.Text value opening closing pos) = true ↔
        ∃ opening1 closing1 pos1, p = .Text value opening1 closing1 pos1) ∧
    (∀ (s : text) (pos1 pos2 : tree_position),
      Match (.Text s "\"" "\"" pos1) (.Text s "'" "'" pos2) = true) := by
  constructor
  · intro p value opening closing pos
    rw [Match_Text]
    cases p
    case Text v1 o1 cl1 p1 =>
      simp only [decide_eq_true_eq]
      constructor
      · rintro rfl
        exact ⟨o1, cl1, p1, rfl⟩
      · rintro ⟨o2, cl2, p2, h⟩
        cases h
        rfl
    all_goals simp
  · intro s pos1 pos2
    simp [Match_Text]

/-- C3: for a composite candidate, `Match` is true exactly when the pattern
has the same kind, the identical delimiter pair (`Block`) or the identical
operator name (`Infix`), and each child of the pattern matches the
corresponding child of the candidate; `Prefix` and `Postfix` have no operator
gate. -/
theorem Match_composite_iff :
    (∀ (p child : Tree) (opening closing : text) (pos : tree_position),
      Match p (.Block child opening closing pos) = true ↔
        ∃ child1 pos1, p = .Block child1 opening closing pos1 ∧ Match child1 child = true) ∧
    (∀ (p left right : Tree) (name : text) (pos : tree_position),
      Match p (.Infix name left right pos) = true ↔
        ∃ left1 right1 pos1, p = .Infix name left1 right1 pos1 ∧
          Match left1 left = true ∧ Match right1 right = true) ∧
    (∀ (p left right : Tree) (pos : tree_position),
      Match p (.Prefix left right pos) = true ↔
        ∃ left1 right1 pos1, p = .Prefix left1 right1 pos1 ∧
          Match left1 left = true ∧ Match right1 right = true) ∧
    (∀ (p left right : Tree) (pos : tree_position),
      Match p (.Postfix left right pos) = true ↔
        ∃ left1 right1 pos1, p = .Postfix left1 right1 pos1 ∧
          Match left1 left = true ∧ Match right1 right = true) := by
  refine ⟨?_, ?_, ?_, ?_⟩
  · intro p child opening closing pos
    rw [Match_Block]
    cases p
    case Block c1 o1 cl1 p1 =>
      simp only [Bool.and_eq_true, decide_eq_true_eq]
      constructor
      · rintro ⟨⟨h1, h2⟩, h3⟩
        subst h1 h2
        exact ⟨c1, p1, rfl, h3⟩
      · rintro ⟨c2, p2, h, h3⟩
        cases h
        exact ⟨⟨rfl, rfl⟩, h3⟩
    all_goals simp
  · intro p left right name pos
    rw [Match_Infix]
    cases p
    case Infix n1 l1 r1 p1 =>
      simp only [Bool.and_eq_true, decide_eq_true_eq]
      constructor
      · rintro ⟨⟨h1, h2⟩, h3⟩
        subst h1
        exact ⟨l1, r1, p1, rfl, h2, h3⟩
      · rintro ⟨l2, r2, p2, h, h2, h3⟩
        cases h
        exact ⟨⟨rfl, h2⟩, h3⟩
    all_goals simp
  · intro p left right pos
    rw [Match_Prefix]
    cases p
    case Prefix l1 r1 p1 =>
      simp only [Bool.and_eq_true]
      constructor
      · rintro ⟨h2, h3⟩
        exact ⟨l1, r1, p1, rfl, h2, h3⟩
      · rintro ⟨l2, r2, p2, h, h2, h3⟩
        cases h
        exact ⟨h2, h3⟩
    all_goals simp
  · intro p left right pos
    rw [Match_Postfix]
    cases p
    case Postfix l1 r1 p1 =>
      simp only [Bool.and_eq_true]
      constructor
      · rintro ⟨h2, h3⟩
        exact ⟨l1, r1, p1, rfl, h2, h3⟩
      · rintro ⟨l2, r2, p2, h, h2, h3⟩
        cases h
        exact ⟨h2, h3⟩
    all_goals simp

/-- C4: `Match` is symmetric in its two tree arguments. -/
theorem Match_symm (a b : Tree) : Match a b = true ↔ Match b a = true := by
  rw [Match_comm]

/-- C5: dispatching a candidate to its kind handler (`DoInteger` ...
`DoPostfix`) leaves in the cursor `test` the pattern it held before the call,
whether the comparison succeeded or failed. -/
theorem TreeMatch_test_restored (what : Tree) (self : TreeMatch) :
    (what.Do self).2.test = self.test := by
  rw [Tree.Do_snd]

/-- C6: the outcome of `Match` does not depend on source positions: when `p1`
and `c1` differ from `p` and `c` only in the positions of their nodes, the two
matches give the same outcome. -/
theorem Match_position_insensitive (p c p1 c1 : Tree)
    (hp : p1.erasePositions = p.erasePositions) (hc : c1.erasePositions = c.erasePositions) :
    Match p1 c1 = Match p c := by
  rw [← Match_erasePositions p1 c1, ← Match_erasePositions p c, hp, hc]

/-- C6, witness: the pattern `A + 2` and the candidate `A + 2` read at other
source positions. -/
theorem Match_position_insensitive_witness :
    Match (.Infix "+" (.Name "A" 10) (.Integer 2 14) 12)
        (.Infix "+" (.Name "A" 30) (.Integer 2 34) 32) =
      Match (.Infix "+" (.Name "A" 0) (.Integer 2 4) 2)
        (.Infix "+" (.Name "A" 20) (.Integer 2 24) 22) :=
  Match_position_insensitive _ _ _ _ (by decide) (by decide)

/-! ## `EnterName` -/

theorem alphabetic_eq_false_iff (value : text) :
    alphabetic value = false ↔ (value.length = 0 ∨ (!isalpha (value.get 0)) = true) := by
  unfold alphabetic
  cases isalpha (value.get 0) <;> simp

theorem alphabetic_iff (value : text) :
    alphabetic value = true ↔ ¬ (value.length = 0 ∨ (!isalpha (value.get 0)) = true) := by
  rw [← alphabetic_eq_false_iff]
  simp

theorem ParameterList.EnterName_of_alphabetic (what : Name) (type : llvm_type)
    (globalCheck : Bool) (self : ParameterList) (h : alphabetic what.value = true) :
    self.EnterName what type globalCheck =
      ParameterList.EnterName.rest what type globalCheck self := by
  unfold ParameterList.EnterName ParameterList.EnterName.rest
  rw [if_neg ((alphabetic_iff _).mp h)]

theorem ParameterList.EnterName_of_not_alphabetic (what : Name) (type : llvm_type)
    (globalCheck : Bool) (self : ParameterList) (h : alphabetic what.value = false) :
    self.EnterName what type globalCheck =
      ParameterList.EnterName.rest what type globalCheck
        (self.Ooops "The pattern variable $1 is not a name" what.toTree) := by
  unfold ParameterList.EnterName ParameterList.EnterName.rest
  rw [if_pos ((alphabetic_eq_false_iff _).mp h)]

theorem ParameterList.EnterName_repeated (what : Name) (type : llvm_type) (globalCheck : Bool)
    (self : ParameterList) (p : Parameter)
    (hp : self.parameters.find? (fun q => decide (q.name.value = what.value)) = some p) :
    (self.EnterName what type globalCheck).1
        = decide (type = self.compiler.treePtrTy ∨ type = p.type) ∧
      (self.EnterName what type globalCheck).2.parameters = self.parameters := by
  cases h : alphabetic what.value
  · rw [ParameterList.EnterName_of_not_alphabetic _ _ _ _ h]
    unfold ParameterList.EnterName.rest
    simp only [ParameterList.Ooops, ParameterList.EnterName.loop_eq_find, hp, Option.map_some']
    by_cases h2 : type = self.compiler.treePtrTy ∨ type = p.type <;> simp [h2]
  · rw [ParameterList.EnterName_of_alphabetic _ _ _ _ h]
    unfold ParameterList.EnterName.rest
    simp only [ParameterList.Ooops, ParameterList.EnterName.loop_eq_find, hp, Option.map_some']
    by_cases h2 : type = self.compiler.treePtrTy ∨ type = p.type <;> simp [h2]

/-! ## Claims about the parameter extractor -/

/-- C7: what the code does on the symbol `+`, which is not alphabetic: from
the initial state, `EnterName` reports "not a name", then goes on, appends the
name to the parameter list and returns true. -/
theorem EnterName_symbol_entered (compiler : Compiler) (context : Context)
    (type : llvm_type) (pos : tree_position) :
    alphabetic "+" = false ∧
    ((ParameterList.init compiler context).EnterName ⟨"+", pos⟩ type false).1 = true ∧
    ((ParameterList.init compiler context).EnterName ⟨"+", pos⟩ type false).2.parameters
      = [⟨⟨"+", pos⟩, type⟩] ∧
    ((ParameterList.init compiler context).EnterName ⟨"+", pos⟩ type false).2.errors
      = [⟨"The pattern variable $1 is not a name", .Name "+" pos⟩] := by
  have h : alphabetic "+" = false := by decide
  rw [ParameterList.EnterName_of_not_alphabetic _ _ _ _ h]
  exact ⟨h, rfl, rfl, rfl⟩

/-- C8, counterexample: in a context where `A` is bound, the walk of
`A + A:integer` from the initial state succeeds, although the machine type of
`integer` (handle 1) is not the generic tree type (handle 0): the first `A` is
taken for a literal and the typed `A` is entered as a new parameter. -/
theorem repeated_parameter_counterexample :
    alphabetic "A" = true ∧
    (some 1 : llvm_type) ≠ some 0 ∧
    ((Tree.Infix "+" (.Name "A" 0) (.Infix ":" (.Name "A" 4) (.Name "integer" 6) 5) 2).DoParameters
      (ParameterList.init ⟨some 0, fun _ _ => some 1⟩ ⟨fun _ => true⟩)).1 = true := by
  decide

/-- C8, amended: for the pattern `A + A:T` walked from the initial extractor
state, with `A` alphabetic, `A` not bound in the enclosing context and
`MachineType(T)` different from the generic tree type, extraction fails. More
generally `EnterName` on a name already in the parameter list (recorded by the
first entry `p` of that name) returns true exactly when the new type is the
generic type or the type of `p`, and false otherwise, and adds no entry in
either case. -/
theorem repeated_parameter_conflict (compiler : Compiler) (context : Context) (A : text)
    (T : Tree) (pos1 pos2 pos3 pos4 : tree_position)
    (hA : alphabetic A = true)
    (hT : compiler.MachineType context T ≠ compiler.treePtrTy)
    (hB : context.Bound ⟨A, pos1⟩ = false) :
    ((Tree.Infix "+" (.Name A pos1) (.Infix ":" (.Name A pos2) T pos3) pos4).DoParameters
      (ParameterList.init compiler context)).1 = false ∧
    ∀ (self : ParameterList) (what : Name) (type : llvm_type) (globalCheck : Bool)
      (p : Parameter),
      self.parameters.find? (fun q => decide (q.name.value = what.value)) = some p →
        (self.EnterName what type globalCheck).1
            = decide (type = self.compiler.treePtrTy ∨ type = p.type) ∧
          (self.EnterName what type globalCheck).2.parameters = self.parameters := by
  have hne : ¬ ("+" = ":") := by decide
  constructor
  · simp [Tree.DoParameters, ParameterList.DoInfix, ParameterList.DoName, ParameterList.init,
      ParameterList.EnterName_of_alphabetic, ParameterList.EnterName.rest,
      ParameterList.EnterName.loop, Tree.AsName, hA, hT, hB, hne]
  · intro self what type globalCheck p hp
    exact ParameterList.EnterName_repeated what type globalCheck self p hp

/-- C8, witness: `A + A:integer` with `A` unbound, and `EnterName` of `A` with
the type of handle 1 on the list `[(A, handle 0)]`. -/
theorem repeated_parameter_conflict_witness :
    ((Tree.Infix "+" (.Name "A" 0) (.Infix ":" (.Name "A" 4) (.Name "integer" 6) 5) 2).DoParameters
      (ParameterList.init ⟨some 0, fun _ _ => some 1⟩ ⟨fun _ => false⟩)).1 = false ∧
    (ParameterList.EnterName ⟨"A", 4⟩ (some 1) false
      { compiler := ⟨some 0, fun _ _ => some 1⟩, context := ⟨fun _ => false⟩, defined := none,
        parameters := [⟨⟨"A", 0⟩, some 0⟩], returned := none, errors := [] }).1
      = decide ((some 1 : llvm_type) = some 0 ∨ (some 1 : llvm_type) = some 0) := by
  have h := repeated_parameter_conflict ⟨some 0, fun _ _ => some 1⟩ ⟨fun _ => false⟩ "A"
    (.Name "integer" 6) 0 4 5 2 (by decide) (by decide) (by decide)
  exact ⟨h.1, (h.2
    { compiler := ⟨some 0, fun _ _ => some 1⟩, context := ⟨fun _ => false⟩, defined := none,
      parameters := [⟨⟨"A", 0⟩, some 0⟩], returned := none, errors := [] }
    ⟨"A", 4⟩ (some 1) false ⟨⟨"A", 0⟩, some 0⟩ (by decide)).1⟩

/-- C10: for every pattern `f x` (a `Prefix` of two names) walked from the
initial extractor state, with `x` alphabetic and not bound in the context,
extraction succeeds, the head `defined` is the node `Name f` itself and the
parameter list is exactly `[(x, generic tree type)]`. -/
theorem Prefix_name_name (compiler : Compiler) (context : Context) (f x : text)
    (posf posx pos : tree_position)
    (hx : alphabetic x = true) (hB : context.Bound ⟨x, posx⟩ = false) :
    ((Tree.Prefix (.Name f posf) (.Name x posx) pos).DoParameters
        (ParameterList.init compiler context)).1 = true ∧
    ((Tree.Prefix (.Name f posf) (.Name x posx) pos).DoParameters
        (ParameterList.init compiler context)).2.defined = some (.Name f posf) ∧
    ((Tree.Prefix (.Name f posf) (.Name x posx) pos).DoParameters
        (ParameterList.init compiler context)).2.parameters
      = [⟨⟨x, posx⟩, compiler.treePtrTy⟩] := by
  simp [Tree.DoParameters, ParameterList.DoPrefix, ParameterList.DoName, ParameterList.init,
    ParameterList.EnterName_of_alphabetic, ParameterList.EnterName.rest,
    ParameterList.EnterName.loop, Tree.AsInfix, Name.toTree, hx, hB]

/-- C10, witness: the pattern `sin X`. -/
theorem Prefix_name_name_witness :
    alphabetic "X" = true ∧
    ((Tree.Prefix (.Name "sin" 0) (.Name "X" 4) 0).DoParameters
        (ParameterList.init ⟨some 0, fun _ _ => some 1⟩ ⟨fun _ => false⟩)).1 = true ∧
    ((Tree.Prefix (.Name "sin" 0) (.Name "X" 4) 0).DoParameters
        (ParameterList.init ⟨some 0, fun _ _ => some 1⟩ ⟨fun _ => false⟩)).2.defined
      = some (.Name "sin" 0) ∧
    ((Tree.Prefix (.Name "sin" 0) (.Name "X" 4) 0).DoParameters
        (ParameterList.init ⟨some 0, fun _ _ => some 1⟩ ⟨fun _ => false⟩)).2.parameters
      = [⟨⟨"X", 4⟩, some 0⟩] :=
  ⟨by decide, Prefix_name_name ⟨some 0, fun _ _ => some 1⟩ ⟨fun _ => false⟩ "sin" "X" 0 4 0
    (by decide) (by decide)⟩

/-! ## Claims about the walk of particular patterns -/

/-- C11: for every pattern `a op a` with `op` different from `:`, walked from
the initial extractor state with `a` alphabetic and not bound in the context,
extraction succeeds, the head `defined` is the `Infix` node itself and the
parameter list has exactly one entry, `(a, generic tree type)`, recorded at
the first occurrence of `a`. -/
theorem Infix_repeated_name (compiler : Compiler) (context : Context) (op a : text)
    (pos1 pos2 pos : tree_position)
    (hop : op ≠ ":") (ha : alphabetic a = true) (hB : context.Bound ⟨a, pos1⟩ = false) :
    ((Tree.Infix op (.Name a pos1) (.Name a pos2) pos).DoParameters
        (ParameterList.init compiler context)).1 = true ∧
    ((Tree.Infix op (.Name a pos1) (.Name a pos2) pos).DoParameters
        (ParameterList.init compiler context)).2.defined
      = some (.Infix op (.Name a pos1) (.Name a pos2) pos) ∧
    ((Tree.Infix op (.Name a pos1) (.Name a pos2) pos).DoParameters
        (ParameterList.init compiler context)).2.parameters
      = [⟨⟨a, pos1⟩, compiler.treePtrTy⟩] := by
  simp [Tree.DoParameters, ParameterList.DoInfix, ParameterList.DoName, ParameterList.init,
    ParameterList.EnterName_of_alphabetic, ParameterList.EnterName.rest,
    ParameterList.EnterName.loop, Infix.toTree, hop, ha, hB]

/-- C11, witness: the pattern `A + A`. -/
theorem Infix_repeated_name_witness :
    ("+" : text) ≠ ":" ∧ alphabetic "A" = true ∧
    ((Tree.Infix "+" (.Name "A" 0) (.Name "A" 4) 2).DoParameters
        (ParameterList.init ⟨some 0, fun _ _ => some 1⟩ ⟨fun _ => false⟩)).1 = true ∧
    ((Tree.Infix "+" (.Name "A" 0) (.Name "A" 4) 2).DoParameters
        (ParameterList.init ⟨some 0, fun _ _ => some 1⟩ ⟨fun _ => false⟩)).2.defined
      = some (.Infix "+" (.Name "A" 0) (.Name "A" 4) 2) ∧
    ((Tree.Infix "+" (.Name "A" 0) (.Name "A" 4) 2).DoParameters
        (ParameterList.init ⟨some 0, fun _ _ => some 1⟩ ⟨fun _ => false⟩)).2.parameters
      = [⟨⟨"A", 0⟩, some 0⟩] :=
  ⟨by decide, by decide,
    Infix_repeated_name ⟨some 0, fun _ _ => some 1⟩ ⟨fun _ => false⟩ "+" "A" 0 4 2
      (by decide) (by decide) (by decide)⟩

/-- C12: for every pattern `K : T` with `K` a name, walked from the initial
extractor state with `K` alphabetic, extraction succeeds, the head `defined`
remains unset, no return type is recorded and the parameter list is exactly
`[(K, MachineType(context, T))]`, whether or not `K` is bound in the enclosing
context. -/
theorem Infix_typed_name (compiler : Compiler) (context : Context) (K : text) (T : Tree)
    (posK pos : tree_position) (hK : alphabetic K = true) :
    ((Tree.Infix ":" (.Name K posK) T pos).DoParameters
        (ParameterList.init compiler context)).1 = true ∧
    ((Tree.Infix ":" (.Name K posK) T pos).DoParameters
        (ParameterList.init compiler context)).2.defined = none ∧
    ((Tree.Infix ":" (.Name K posK) T pos).DoParameters
        (ParameterList.init compiler context)).2.returned = none ∧
    ((Tree.Infix ":" (.Name K posK) T pos).DoParameters
        (ParameterList.init compiler context)).2.parameters
      = [⟨⟨K, posK⟩, compiler.MachineType context T⟩] := by
  simp [Tree.DoParameters, ParameterList.DoInfix, ParameterList.init,
    ParameterList.EnterName_of_alphabetic, ParameterList.EnterName.rest,
    ParameterList.EnterName.loop, Tree.AsName, hK]

/-- C12, witness: the pattern `K : integer` in a context where every name,
`K` included, is bound. -/
theorem Infix_typed_name_witness :
    alphabetic "K" = true ∧
    ((Tree.Infix ":" (.Name "K" 0) (.Name "integer" 4) 2).DoParameters
        (ParameterList.init ⟨some 0, fun _ _ => some 1⟩ ⟨fun _ => true⟩)).1 = true ∧
    ((Tree.Infix ":" (.Name "K" 0) (.Name "integer" 4) 2).DoParameters
        (ParameterList.init ⟨some 0, fun _ _ => some 1⟩ ⟨fun _ => true⟩)).2.defined = none ∧
    ((Tree.Infix ":" (.Name "K" 0) (.Name "integer" 4) 2).DoParameters
        (ParameterList.init ⟨some 0, fun _ _ => some 1⟩ ⟨fun _ => true⟩)).2.returned = none ∧
    ((Tree.Infix ":" (.Name "K" 0) (.Name "integer" 4) 2).DoParameters
        (ParameterList.init ⟨some 0, fun _ _ => some 1⟩ ⟨fun _ => true⟩)).2.parameters
      = [⟨⟨"K", 0⟩, some 1⟩] :=
  ⟨by decide,
    Infix_typed_name ⟨some 0, fun _ _ => some 1⟩ ⟨fun _ => true⟩ "K" (.Name "integer" 4) 0 2
      (by decide)⟩

/-- C13: for every pattern `(x op y) : T` with `op` different from `:`, `x`
and `y` distinct alphabetic names not bound in the context, walked from the
initial extractor state: extraction succeeds, the return type is
`MachineType(context, T)`, the head is the inner `Infix` node, and the
parameter list is `[(x, generic), (y, generic)]` in that order; the type
expression `T` contributes no parameter. -/
theorem Infix_return_type (compiler : Compiler) (context : Context) (op x y : text)
    (T : Tree) (opening closing : text) (posx posy posi posb pos : tree_position)
    (hop : op ≠ ":") (hxy : x ≠ y) (hx : alphabetic x = true) (hy : alphabetic y = true)
    (hBx : context.Bound ⟨x, posx⟩ = false) (hBy : context.Bound ⟨y, posy⟩ = false) :
    ((Tree.Infix ":" (.Block (.Infix op (.Name x posx) (.Name y posy) posi) opening closing posb)
        T pos).DoParameters (ParameterList.init compiler context)).1 = true ∧
    ((Tree.Infix ":" (.Block (.Infix op (.Name x posx) (.Name y posy) posi) opening closing posb)
        T pos).DoParameters (ParameterList.init compiler context)).2.returned
      = compiler.MachineType context T ∧
    ((Tree.Infix ":" (.Block (.Infix op (.Name x posx) (.Name y posy) posi) opening closing posb)
        T pos).DoParameters (ParameterList.init compiler context)).2.defined
      = some (.Infix op (.Name x posx) (.Name y posy) posi) ∧
    ((Tree.Infix ":" (.Block (.Infix op (.Name x posx) (.Name y posy) posi) opening closing posb)
        T pos).DoParameters (ParameterList.init compiler context)).2.parameters
      = [⟨⟨x, posx⟩, compiler.treePtrTy⟩, ⟨⟨y, posy⟩, compiler.treePtrTy⟩] := by
  simp [Tree.DoParameters, ParameterList.DoInfix, ParameterList.DoBlock, ParameterList.DoName,
    ParameterList.init, ParameterList.EnterName_of_alphabetic, ParameterList.EnterName.rest,
    ParameterList.EnterName.loop, Tree.AsName, Infix.toTree, hop, hxy, hx, hy, hBx, hBy]

/-- C13, witness: the pattern `(X + Y) : integer`. -/
theorem Infix_return_type_witness :
    ((Tree.Infix ":" (.Block (.Infix "+" (.Name "X" 1) (.Name "Y" 5) 3) "(" ")" 0)
        (.Name "integer" 9) 7).DoParameters
        (ParameterList.init ⟨some 0, fun _ _ => some 1⟩ ⟨fun _ => false⟩)).1 = true ∧
    ((Tree.Infix ":" (.Block (.Infix "+" (.Name "X" 1) (.Name "Y" 5) 3) "(" ")" 0)
        (.Name "integer" 9) 7).DoParameters
        (ParameterList.init ⟨some 0, fun _ _ => some 1⟩ ⟨fun _ => false⟩)).2.returned = some 1 ∧
    ((Tree.Infix ":" (.Block (.Infix "+" (.Name "X" 1) (.Name "Y" 5) 3) "(" ")" 0)
        (.Name "integer" 9) 7).DoParameters
        (ParameterList.init ⟨some 0, fun _ _ => some 1⟩ ⟨fun _ => false⟩)).2.defined
      = some (.Infix "+" (.Name "X" 1) (.Name "Y" 5) 3) ∧
    ((Tree.Infix ":" (.Block (.Infix "+" (.Name "X" 1) (.Name "Y" 5) 3) "(" ")" 0)
        (.Name "integer" 9) 7).DoParameters
        (ParameterList.init ⟨some 0, fun _ _ => some 1⟩ ⟨fun _ => false⟩)).2.parameters
      = [⟨⟨"X", 1⟩, some 0⟩, ⟨⟨"Y", 5⟩, some 0⟩] :=
  Infix_return_type ⟨some 0, fun _ _ => some 1⟩ ⟨fun _ => false⟩ "+" "X" "Y" (.Name "integer" 9)
    "(" ")" 1 5 3 0 7 (by decide) (by decide) (by decide) (by decide) (by decide) (by decide)

/-- C14: for the pattern `if X then Y`, the `Prefix` of `Name "if"` and of
the `Infix` `then`, walked from the initial extractor state with `X` and `Y`
distinct, alphabetic and unbound, extraction succeeds and the head `defined`
is the node `Name "if"`, not the inner `then` infix; the parameters are
`[X, Y]` with the generic type. -/
theorem Prefix_if_then (compiler : Compiler) (context : Context) (X Y : text)
    (posif posx posy posi pos : tree_position)
    (hxy : X ≠ Y) (hx : alphabetic X = true) (hy : alphabetic Y = true)
    (hBx : context.Bound ⟨X, posx⟩ = false) (hBy : context.Bound ⟨Y, posy⟩ = false) :
    ((Tree.Prefix (.Name "if" posif) (.Infix "then" (.Name X posx) (.Name Y posy) posi)
        pos).DoParameters (ParameterList.init compiler context)).1 = true ∧
    ((Tree.Prefix (.Name "if" posif) (.Infix "then" (.Name X posx) (.Name Y posy) posi)
        pos).DoParameters (ParameterList.init compiler context)).2.defined
      = some (.Name "if" posif) ∧
    ((Tree.Prefix (.Name "if" posif) (.Infix "then" (.Name X posx) (.Name Y posy) posi)
        pos).DoParameters (ParameterList.init compiler context)).2.parameters
      = [⟨⟨X, posx⟩, compiler.treePtrTy⟩, ⟨⟨Y, posy⟩, compiler.treePtrTy⟩] := by
  have hne : ¬ ("then" = ":") := by decide
  simp [Tree.DoParameters, ParameterList.DoPrefix, ParameterList.DoInfix, ParameterList.DoName,
    ParameterList.init, ParameterList.EnterName_of_alphabetic, ParameterList.EnterName.rest,
    ParameterList.EnterName.loop, Tree.AsInfix, Name.toTree, hne, hxy, hx, hy, hBx, hBy]

/-- C14, witness: `if X then Y`. -/
theorem Prefix_if_then_witness :
    ((Tree.Prefix (.Name "if" 0) (.Infix "then" (.Name "X" 3) (.Name "Y" 10) 5)
        0).DoParameters
        (ParameterList.init ⟨some 0, fun _ _ => some 1⟩ ⟨fun _ => false⟩)).1 = true ∧
    ((Tree.Prefix (.Name "if" 0) (.Infix "then" (.Name "X" 3) (.Name "Y" 10) 5)
        0).DoParameters
        (ParameterList.init ⟨some 0, fun _ _ => some 1⟩ ⟨fun _ => false⟩)).2.defined
      = some (.Name "if" 0) ∧
    ((Tree.Prefix (.Name "if" 0) (.Infix "then" (.Name "X" 3) (.Name "Y" 10) 5)
        0).DoParameters
        (ParameterList.init ⟨some 0, fun _ _ => some 1⟩ ⟨fun _ => false⟩)).2.parameters
      = [⟨⟨"X", 3⟩, some 0⟩, ⟨⟨"Y", 10⟩, some 0⟩] :=
  Prefix_if_then ⟨some 0, fun _ _ => some 1⟩ ⟨fun _ => false⟩ "X" "Y" 0 3 10 5 0
    (by decide) (by decide) (by decide) (by decide) (by decide)

/-! ## Type annotations, the global check and the signature -/

theorem Tree.AsName_eq_none_of_Kind (L : Tree) (hL : L.Kind ≠ kind.NAME) :
    Tree.AsName (some L) = none := by
  rw [Tree.Kind_eq_ctorKind] at hL
  cases L <;> simp [Tree.AsName, Tree.ctorKind] at hL ⊢

theorem ParameterList.EnterName.loop_eq_none (treePtrTy type : llvm_type) (name : text)
    (ps : List Parameter) (h : ∀ p ∈ ps, p.name.value ≠ name) :
    ParameterList.EnterName.loop treePtrTy type name ps = none := by
  induction ps with
  | nil => rfl
  | cons it rest ih =>
    have h1 : it.name.value ≠ name := h it (List.mem_cons_self _ _)
    have h2 : ∀ p ∈ rest, p.name.value ≠ name := fun p hp => h p (List.mem_cons_of_mem _ hp)
    simp [ParameterList.EnterName.loop, h1, ih h2]

theorem ParameterList.Signature_foldl (ps : List Parameter) (signature : List llvm_type) :
    ps.foldl (fun sig p => sig ++ [p.type]) signature = signature ++ ps.map Parameter.type := by
  induction ps generalizing signature with
  | nil => simp
  | cons p rest ih => simp [List.foldl, ih]

/-- C15: for every `Infix` `L : T` whose left side `L` is not a `Name`: if a
return type is already recorded or the head `defined` is already set when the
node is visited, the walk returns failure and leaves `defined`, `parameters`
and `returned` unchanged; if neither is set, `returned` becomes
`MachineType(context, T)` and the result is that of walking `L` only. -/
theorem Infix_type_of_expression (self : ParameterList) (L T : Tree) (pos : tree_position)
    (hL : L.Kind ≠ kind.NAME) :
    (self.returned.isSome = true ∨ self.defined.isSome = true →
      ((Tree.Infix ":" L T pos).DoParameters self).1 = false ∧
      ((Tree.Infix ":" L T pos).DoParameters self).2.defined = self.defined ∧
      ((Tree.Infix ":" L T pos).DoParameters self).2.parameters = self.parameters ∧
      ((Tree.Infix ":" L T pos).DoParameters self).2.returned = self.returned) ∧
    (¬ (self.returned.isSome = true ∨ self.defined.isSome = true) →
      (Tree.Infix ":" L T pos).DoParameters self =
        L.DoParameters { self with returned := self.compiler.MachineType self.context T }) := by
  have hN := Tree.AsName_eq_none_of_Kind L hL
  constructor
  · intro h
    simp only [Tree.DoParameters, ParameterList.DoInfix, if_true, hN]
    rw [if_pos (by simpa using h)]
    simp [ParameterList.Ooops]
  · intro h
    simp only [Tree.DoParameters, ParameterList.DoInfix, if_true, hN]
    rw [if_neg (by simpa using h)]

/-- C16: for every alphabetic name `n` that is not already in the parameter
list: when `n` is bound in the enclosing context, `EnterName(n, type, true)`
succeeds and leaves the parameter list (and the rest of the state) unchanged;
when `n` is unbound, or with `checkGlobal = false`, `EnterName` succeeds and
appends exactly `(n, type)` at the end of the list. -/
theorem EnterName_global_check (self : ParameterList) (n : Name) (type : llvm_type)
    (hn : alphabetic n.value = true)
    (hnew : ∀ p ∈ self.parameters, p.name.value ≠ n.value) :
    (self.context.Bound n = true → self.EnterName n type true = (true, self)) ∧
    (self.context.Bound n = false →
      self.EnterName n type true =
        (true, { self with parameters := self.parameters ++ [⟨n, type⟩] })) ∧
    self.EnterName n type false =
      (true, { self with parameters := self.parameters ++ [⟨n, type⟩] }) := by
  have hloop := ParameterList.EnterName.loop_eq_none self.compiler.treePtrTy type n.value
    self.parameters hnew
  refine ⟨?_, ?_, ?_⟩
  · intro hB
    rw [ParameterList.EnterName_of_alphabetic _ _ _ _ hn]
    simp [ParameterList.EnterName.rest, hloop, hB]
  · intro hB
    rw [ParameterList.EnterName_of_alphabetic _ _ _ _ hn]
    simp [ParameterList.EnterName.rest, hloop, hB]
  · rw [ParameterList.EnterName_of_alphabetic _ _ _ _ hn]
    simp [ParameterList.EnterName.rest, hloop]

/-- C17: `Signature` called on an empty signature vector yields the types of
the parameters in order: a list of the same length as the parameter list whose
i-th element is the type of the i-th parameter; the extractor, its parameter
list included, is left unchanged. -/
theorem Signature_types (self : ParameterList) :
    (self.Signature []).1 = self.parameters.map Parameter.type ∧
    (self.Signature []).1.length = self.parameters.length ∧
    (∀ i : Nat, (self.Signature []).1[i]? = (self.parameters[i]?).map Parameter.type) ∧
    (self.Signature []).2 = self := by
  have h : (self.Signature []).1 = self.parameters.map Parameter.type := by
    simp [ParameterList.Signature, ParameterList.Signature_foldl]
  refine ⟨h, ?_, ?_, rfl⟩
  · rw [h, List.length_map]
  · intro i
    rw [h, List.getElem?_map]

/-- C15, witness: `(X + Y) : integer` visited once with the head already set
to the name `f`, and once from the initial state. -/
theorem Infix_type_of_expression_witness :
    (((Tree.Infix ":" (.Block (.Infix "+" (.Name "X" 1) (.Name "Y" 5) 3) "(" ")" 0)
        (.Name "integer" 9) 7).DoParameters
        { compiler := ⟨some 0, fun _ _ => some 1⟩, context := ⟨fun _ => false⟩,
          defined := some (.Name "f" 0), parameters := [], returned := none,
          errors := [] }).1 = false ∧
      ((Tree.Infix ":" (.Block (.Infix "+" (.Name "X" 1) (.Name "Y" 5) 3) "(" ")" 0)
        (.Name "integer" 9) 7).DoParameters
        { compiler := ⟨some 0, fun _ _ => some 1⟩, context := ⟨fun _ => false⟩,
          defined := some (.Name "f" 0), parameters := [], returned := none,
          errors := [] }).2.defined = some (.Name "f" 0) ∧
      ((Tree.Infix ":" (.Block (.Infix "+" (.Name "X" 1) (.Name "Y" 5) 3) "(" ")" 0)
        (.Name "integer" 9) 7).DoParameters
        { compiler := ⟨some 0, fun _ _ => some 1⟩, context := ⟨fun _ => false⟩,
          defined := some (.Name "f" 0), parameters := [], returned := none,
          errors := [] }).2.parameters = [] ∧
      ((Tree.Infix ":" (.Block (.Infix "+" (.Name "X" 1) (.Name "Y" 5) 3) "(" ")" 0)
        (.Name "integer" 9) 7).DoParameters
        { compiler := ⟨some 0, fun _ _ => some 1⟩, context := ⟨fun _ => false⟩,
          defined := some (.Name "f" 0), parameters := [], returned := none,
          errors := [] }).2.returned = none) ∧
    (Tree.Infix ":" (.Block (.Infix "+" (.Name "X" 1) (.Name "Y" 5) 3) "(" ")" 0)
        (.Name "integer" 9) 7).DoParameters
        (ParameterList.init ⟨some 0, fun _ _ => some 1⟩ ⟨fun _ => false⟩) =
      (Tree.Block (.Infix "+" (.Name "X" 1) (.Name "Y" 5) 3) "(" ")" 0).DoParameters
        { ParameterList.init ⟨some 0, fun _ _ => some 1⟩ ⟨fun _ => false⟩ with
          returned := some 1 } :=
  ⟨(Infix_type_of_expression
      { compiler := ⟨some 0, fun _ _ => some 1⟩, context := ⟨fun _ => false⟩,
        defined := some (.Name "f" 0), parameters := [], returned := none, errors := [] }
      (.Block (.Infix "+" (.Name "X" 1) (.Name "Y" 5) 3) "(" ")" 0) (.Name "integer" 9) 7
      (by decide)).1 (by decide),
    (Infix_type_of_expression (ParameterList.init ⟨some 0, fun _ _ => some 1⟩ ⟨fun _ => false⟩)
      (.Block (.Infix "+" (.Name "X" 1) (.Name "Y" 5) 3) "(" ")" 0) (.Name "integer" 9) 7
      (by decide)).2 (by decide)⟩

/-- C16, witness: on the list `[(A, generic)]`, in a context where only
`false` is bound, the name `false` is taken for a literal and the name `B` is
appended. -/
theorem EnterName_global_check_witness :
    ParameterList.EnterName ⟨"false", 3⟩ (some 0) true
        { compiler := ⟨some 0, fun _ _ => some 1⟩,
          context := ⟨fun n => decide (n.value = "false")⟩,
          defined := some (.Name "f" 0), parameters := [⟨⟨"A", 1⟩, some 0⟩], returned := none,
          errors := [] } =
      (true,
        { compiler := ⟨some 0, fun _ _ => some 1⟩,
          context := ⟨fun n => decide (n.value = "false")⟩,
          defined := some (.Name "f" 0), parameters := [⟨⟨"A", 1⟩, some 0⟩], returned := none,
          errors := [] }) ∧
    ParameterList.EnterName ⟨"B", 3⟩ (some 0) true
        { compiler := ⟨some 0, fun _ _ => some 1⟩,
          context := ⟨fun n => decide (n.value = "false")⟩,
          defined := some (.Name "f" 0), parameters := [⟨⟨"A", 1⟩, some 0⟩], returned := none,
          errors := [] } =
      (true,
        { compiler := ⟨some 0, fun _ _ => some 1⟩,
          context := ⟨fun n => decide (n.value = "false")⟩,
          defined := some (.Name "f" 0),
          parameters := [⟨⟨"A", 1⟩, some 0⟩, ⟨⟨"B", 3⟩, some 0⟩], returned := none,
          errors := [] }) :=
  ⟨(EnterName_global_check
      { compiler := ⟨some 0, fun _ _ => some 1⟩,
        context := ⟨fun n => decide (n.value = "false")⟩,
        defined := some (.Name "f" 0), parameters := [⟨⟨"A", 1⟩, some 0⟩], returned := none,
        errors := [] }
      ⟨"false", 3⟩ (some 0) (by decide) (by decide)).1 (by decide),
    (EnterName_global_check
      { compiler := ⟨some 0, fun _ _ => some 1⟩,
        context := ⟨fun n => decide (n.value = "false")⟩,
        defined := some (.Name "f" 0), parameters := [⟨⟨"A", 1⟩, some 0⟩], returned := none,
        errors := [] }
      ⟨"B", 3⟩ (some 0) (by decide) (by decide)).2.1 (by decide)⟩

/-! ## Claims about the type checks and the node kinds -/

/-- C18: what the code does on the comparison `1 < 2` when its evaluation
yields `true_name`: `BooleanType::TypeCheck` compares the unevaluated argument
with the two sentinel names and rejects it, where `IntegerType::TypeCheck`
and the other predicates evaluate their argument first. -/
theorem BooleanType_TypeCheck_unevaluated :
    (Runtime.mk (fun (_ : Unit) _ => some (.Name "true" Tree.NOWHERE))
        (.Name "true" Tree.NOWHERE) (.Name "false" Tree.NOWHERE) "'" "'").Run ()
        (.Infix "<" (.Integer 1 0) (.Integer 2 4) 2)
      = some (.Name "true" Tree.NOWHERE) ∧
    BooleanType.TypeCheck
        (Runtime.mk (fun (_ : Unit) _ => some (.Name "true" Tree.NOWHERE))
          (.Name "true" Tree.NOWHERE) (.Name "false" Tree.NOWHERE) "'" "'") ()
        (.Infix "<" (.Integer 1 0) (.Integer 2 4) 2)
      = none := by
  decide

/-- C19: the `Character` and `Text` type checks partition the evaluated
`Text` results: when the evaluation of the value yields a `Text` node,
`Character` accepts it exactly when both its delimiters equal the
single-character quote pair, `Text` accepts it exactly when at least one
differs, so that exactly one of the two accepts; when the evaluation does not
yield a `Text`, both reject. -/
theorem Text_Character_partition {Stack : Type} (rt : Runtime Stack) (stack : Stack)
    (value : Tree) :
    (∀ tt : Text, Tree.AsText (rt.Run stack value) = some tt →
      ((CharacterType.TypeCheck rt stack value).isSome = true ↔
        (tt.opening = rt.Quote_Opening ∧ tt.closing = rt.Quote_Closing)) ∧
      ((TextType.TypeCheck rt stack value).isSome = true ↔
        (tt.opening ≠ rt.Quote_Opening ∨ tt.closing ≠ rt.Quote_Closing)) ∧
      ((CharacterType.TypeCheck rt stack value).isSome
        = !(TextType.TypeCheck rt stack value).isSome)) ∧
    (Tree.AsText (rt.Run stack value) = none →
      CharacterType.TypeCheck rt stack value = none ∧
      TextType.TypeCheck rt stack value = none) := by
  constructor
  · intro tt h
    simp only [CharacterType.TypeCheck, TextType.TypeCheck, h]
    by_cases h1 : tt.opening = rt.Quote_Opening <;>
      by_cases h2 : tt.closing = rt.Quote_Closing <;> simp [h1, h2]
  · intro h
    simp [CharacterType.TypeCheck, TextType.TypeCheck, h]

/-- C19, witness: a runtime that evaluates every value to the text `"a"` and
one that evaluates every value to the character `'a'`. -/
theorem Text_Character_partition_witness :
    ((TextType.TypeCheck (Runtime.mk (fun (_ : Unit) _ => some (.Text "a" "\"" "\"" 0))
        (.Name "true" 0) (.Name "false" 0) "'" "'") () (.Name "x" 0)).isSome = true ∧
      (CharacterType.TypeCheck (Runtime.mk (fun (_ : Unit) _ => some (.Text "a" "\"" "\"" 0))
        (.Name "true" 0) (.Name "false" 0) "'" "'") () (.Name "x" 0)).isSome = false) ∧
    ((CharacterType.TypeCheck (Runtime.mk (fun (_ : Unit) _ => some (.Text "a" "'" "'" 0))
        (.Name "true" 0) (.Name "false" 0) "'" "'") () (.Name "x" 0)).isSome = true ∧
      (TextType.TypeCheck (Runtime.mk (fun (_ : Unit) _ => some (.Text "a" "'" "'" 0))
        (.Name "true" 0) (.Name "false" 0) "'" "'") () (.Name "x" 0)).isSome = false) := by
  have h1 := (Text_Character_partition
    (Runtime.mk (fun (_ : Unit) _ => some (.Text "a" "\"" "\"" 0))
      (.Name "true" 0) (.Name "false" 0) "'" "'") () (.Name "x" 0)).1 ⟨"a", "\"", "\"", 0⟩ rfl
  have h2 := (Text_Character_partition
    (Runtime.mk (fun (_ : Unit) _ => some (.Text "a" "'" "'" 0))
      (.Name "true" 0) (.Name "false" 0) "'" "'") () (.Name "x" 0)).1 ⟨"a", "'", "'", 0⟩ rfl
  refine ⟨⟨h1.2.1.mpr (by decide), ?_⟩, ⟨h2.1.mpr (by decide), ?_⟩⟩
  · rw [h1.2.2, h1.2.1.mpr (by decide)]; rfl
  · have := h2.2.2
    rw [h2.1.mpr (by decide)] at this
    simpa using this.symm

/-- C20: for every tree node, `IsLeaf()` is true exactly when its kind is
`INTEGER`, `REAL`, `TEXT` or `NAME`, and `IsConstant()` exactly when its kind
is `INTEGER`, `REAL` or `TEXT`; every constant is a leaf, and a `Name` is a
leaf but not a constant. -/
theorem IsLeaf_IsConstant (t : Tree) :
    (t.IsLeaf = true ↔
      (t.Kind = kind.INTEGER ∨ t.Kind = kind.REAL ∨ t.Kind = kind.TEXT ∨ t.Kind = kind.NAME)) ∧
    (t.IsConstant = true ↔
      (t.Kind = kind.INTEGER ∨ t.Kind = kind.REAL ∨ t.Kind = kind.TEXT)) ∧
    (t.IsConstant = true → t.IsLeaf = true) ∧
    (∀ (value : text) (pos : tree_position),
      (Tree.Name value pos).Kind = kind.NAME ∧
      (Tree.Name value pos).IsLeaf = true ∧ (Tree.Name value pos).IsConstant = false) := by
  refine ⟨?_, ?_, ?_, ?_⟩
  · unfold Tree.IsLeaf
    cases t.Kind <;> simp [kind.toNat]
  · unfold Tree.IsConstant
    cases t.Kind <;> simp [kind.toNat]
  · unfold Tree.IsLeaf Tree.IsConstant
    cases t.Kind <;> simp [kind.toNat]
  · intro value pos
    have h : (Tree.Name value pos).Kind = kind.NAME := Tree.Kind_eq_ctorKind _
    refine ⟨h, ?_, ?_⟩
    · unfold Tree.IsLeaf; rw [h]; decide
    · unfold Tree.IsConstant; rw [h]; decide

/-! ## The head across a `Prefix` and the walk order of a `Postfix` -/

theorem ParameterList.EnterName_frame (what : Name) (type : llvm_type) (globalCheck : Bool)
    (self : ParameterList) :
    (self.EnterName what type globalCheck).2.defined = self.defined ∧
    (self.EnterName what type globalCheck).2.returned = self.returned ∧
    (self.EnterName what type globalCheck).2.compiler = self.compiler ∧
    (self.EnterName what type globalCheck).2.context = self.context := by
  unfold ParameterList.EnterName
  split_ifs <;> simp only [ParameterList.Ooops] <;> split <;> try split_ifs
  all_goals simp [ParameterList.Ooops]

theorem ParameterList.EnterName_defined (what : Name) (type : llvm_type) (globalCheck : Bool)
    (self : ParameterList) :
    (self.EnterName what type globalCheck).2.defined = self.defined :=
  (ParameterList.EnterName_frame what type globalCheck self).1

theorem ParameterList.EnterName_generic (what : Name) (globalCheck : Bool)
    (self : ParameterList) :
    (self.EnterName what self.compiler.treePtrTy globalCheck).1 = true := by
  cases h : alphabetic what.value
  · rw [ParameterList.EnterName_of_not_alphabetic _ _ _ _ h]
    unfold ParameterList.EnterName.rest
    simp only [ParameterList.Ooops, ParameterList.EnterName.loop_eq_find]
    cases List.find? (fun p => decide (p.name.value = what.value)) self.parameters <;> simp
    split_ifs <;> rfl
  · rw [ParameterList.EnterName_of_alphabetic _ _ _ _ h]
    unfold ParameterList.EnterName.rest
    simp only [ParameterList.EnterName.loop_eq_find]
    cases List.find? (fun p => decide (p.name.value = what.value)) self.parameters <;> simp
    split_ifs <;> rfl

theorem ParameterList.DoPrefix_defined (Do_left Do_right : ParameterList → Bool × ParameterList)
    (what : Prefix) (self : ParameterList) (it : Infix)
    (hit : Tree.AsInfix self.defined = some it)
    (hl : (Do_left { self with defined := none }).1 = true)
    (hr : (Do_right (Do_left { self with defined := none }).2).1 = true) :
    (self.DoPrefix Do_left Do_right what).1 = true ∧
    (self.DoPrefix Do_left Do_right what).2.defined =
      if (Do_right (Do_left { self with defined := none }).2).2.defined.isNone
      then some it.toTree
      else (Do_right (Do_left { self with defined := none }).2).2.defined := by
  simp only [ParameterList.DoPrefix, hit, Option.isSome_some, if_true, hl, hr, Bool.not_true,
    Bool.false_eq_true, if_false, and_true, Option.map_some']
  split_ifs <;> simp

theorem Tree.AsInfix_eq_some (defined : Option Tree) (it : XL.Infix)
    (h : Tree.AsInfix defined = some it) : defined = some it.toTree := by
  rcases defined with _ | t
  · simp [Tree.AsInfix] at h
  · cases t <;> simp [Tree.AsInfix] at h
    subst h
    rfl

/-- C21: when a `Prefix` node is visited while the head `defined` is an
`Infix` shape and both children walks succeed, the visit succeeds and the head
after it is the head established during the children walk (started with the
head cleared) if there is one, and otherwise the original `Infix` head,
restored. For `(if X) then Y` walked from the initial state the final head is
the name `if`, not the outer `then`; for `(1 2) + X` the final head is the
`+` infix. -/
theorem Prefix_head_restored :
    (∀ (self : ParameterList) (left right : Tree) (pos : tree_position) (it : Infix),
      Tree.AsInfix self.defined = some it →
      (left.DoParameters { self with defined := none }).1 = true →
      (right.DoParameters (left.DoParameters { self with defined := none }).2).1 = true →
      ((Tree.Prefix left right pos).DoParameters self).1 = true ∧
      ((Tree.Prefix left right pos).DoParameters self).2.defined =
        if (right.DoParameters
            (left.DoParameters { self with defined := none }).2).2.defined.isNone
        then self.defined
        else (right.DoParameters
            (left.DoParameters { self with defined := none }).2).2.defined) ∧
    (∀ (compiler : Compiler) (context : Context) (X Y : text)
      (posif posx posp posy pos : tree_position),
      ((Tree.Infix "then" (.Prefix (.Name "if" posif) (.Name X posx) posp) (.Name Y posy)
          pos).DoParameters (ParameterList.init compiler context)).2.defined
        = some (.Name "if" posif)) ∧
    (∀ (compiler : Compiler) (context : Context) (X : text)
      (pos1 pos2 posp posx pos : tree_position),
      ((Tree.Infix "+" (.Prefix (.Integer 1 pos1) (.Integer 2 pos2) posp) (.Name X posx)
          pos).DoParameters (ParameterList.init compiler context)).2.defined
        = some (.Infix "+" (.Prefix (.Integer 1 pos1) (.Integer 2 pos2) posp) (.Name X posx)
            pos)) := by
  refine ⟨?_, ?_, ?_⟩
  · intro self left right pos it hit hl hr
    rw [Tree.AsInfix_eq_some _ _ hit]
    exact ParameterList.DoPrefix_defined _ _ ⟨left, right, pos⟩ self it hit hl hr
  · intro compiler context X Y posif posx posp posy pos
    have hne : ¬ ("then" = ":") := by decide
    have hE1 := ParameterList.EnterName_generic ⟨X, posx⟩ true
      { compiler := compiler, context := context, defined := some (Tree.Name "if" posif),
        parameters := [], returned := none, errors := [] }
    have hE2 := (ParameterList.EnterName_frame ⟨X, posx⟩ compiler.treePtrTy true
      { compiler := compiler, context := context, defined := some (Tree.Name "if" posif),
        parameters := [], returned := none, errors := [] }).1
    simp only [] at hE1 hE2
    simp [Tree.DoParameters, ParameterList.DoInfix, ParameterList.DoPrefix,
      ParameterList.DoName, ParameterList.init, Tree.AsInfix, Infix.toTree, Name.toTree, hne,
      hE1, hE2]
    split_ifs <;> simp only [ParameterList.EnterName_defined]
  · intro compiler context X pos1 pos2 posp posx pos
    have hne : ¬ ("+" = ":") := by decide
    simp [Tree.DoParameters, ParameterList.DoInfix, ParameterList.DoPrefix,
      ParameterList.DoName, ParameterList.DoInteger, ParameterList.init, Tree.AsInfix,
      Infix.toTree, hne]
    split_ifs <;> simp only [ParameterList.EnterName_defined]

/-- C21, witness: a `Prefix` visited while the head is the infix `A + B`:
`1 2` establishes no head and the infix is restored; `if X` establishes the
head `if`. -/
theorem Prefix_head_restored_witness :
    ((Tree.Prefix (.Integer 1 0) (.Integer 2 2) 1).DoParameters
      { compiler := ⟨some 0, fun _ _ => some 1⟩, context := ⟨fun _ => false⟩,
        defined := some (.Infix "+" (.Name "A" 0) (.Name "B" 4) 2), parameters := [],
        returned := none, errors := [] }).2.defined
      = some (.Infix "+" (.Name "A" 0) (.Name "B" 4) 2) ∧
    ((Tree.Prefix (.Name "if" 0) (.Name "X" 3) 0).DoParameters
      { compiler := ⟨some 0, fun _ _ => some 1⟩, context := ⟨fun _ => false⟩,
        defined := some (.Infix "+" (.Name "A" 0) (.Name "B" 4) 2), parameters := [],
        returned := none, errors := [] }).2.defined
      = some (.Name "if" 0) :=
  ⟨((Prefix_head_restored.1
      { compiler := ⟨some 0, fun _ _ => some 1⟩, context := ⟨fun _ => false⟩,
        defined := some (.Infix "+" (.Name "A" 0) (.Name "B" 4) 2), parameters := [],
        returned := none, errors := [] }
      (.Integer 1 0) (.Integer 2 2) 1 ⟨"+", .Name "A" 0, .Name "B" 4, 2⟩ rfl
      (by decide) (by decide)).2).trans (by decide),
    ((Prefix_head_restored.1
      { compiler := ⟨some 0, fun _ _ => some 1⟩, context := ⟨fun _ => false⟩,
        defined := some (.Infix "+" (.Name "A" 0) (.Name "B" 4) 2), parameters := [],
        returned := none, errors := [] }
      (.Name "if" 0) (.Name "X" 3) 0 ⟨"+", .Name "A" 0, .Name "B" 4, 2⟩ rfl
      (by decide) (by decide)).2).trans (by decide)⟩

/-- C22, counterexample: in a context where `op` is bound, the walk of the
`Prefix` of the names `x` and `op` from the initial state takes `op` for a
literal: the head is `x` but the parameter list is empty, it does not hold
`op`. -/
theorem Prefix_mirror_counterexample :
    alphabetic "x" = true ∧
    (Context.mk (fun n => decide (n.value = "op"))).Bound ⟨"x", 0⟩ = false ∧
    ((Tree.Prefix (.Name "x" 0) (.Name "op" 2) 0).DoParameters
        (ParameterList.init ⟨some 0, fun _ _ => some 1⟩
          ⟨fun n => decide (n.value = "op")⟩)).2.defined = some (.Name "x" 0) ∧
    ((Tree.Prefix (.Name "x" 0) (.Name "op" 2) 0).DoParameters
        (ParameterList.init ⟨some 0, fun _ _ => some 1⟩
          ⟨fun n => decide (n.value = "op")⟩)).2.parameters = [] := by
  decide

/-- C22, amended: for every pattern `Postfix(Name x, Name op)` walked from the
initial extractor state with `x` alphabetic and unbound, the right child is
visited first: extraction succeeds, the head `defined` is the node `Name op`
and the parameter list is `[(x, generic)]`. The mirror image
`Prefix(Name x, Name op)` yields the head `Name x`, and when `op` is alphabetic
and unbound the parameter list `[(op, generic)]`. -/
theorem Postfix_walk_order (compiler : Compiler) (context : Context) (x op : text)
    (posx posop pos : tree_position)
    (hx : alphabetic x = true) (hB : context.Bound ⟨x, posx⟩ = false) :
    (((Tree.Postfix (.Name x posx) (.Name op posop) pos).DoParameters
        (ParameterList.init compiler context)).1 = true ∧
      ((Tree.Postfix (.Name x posx) (.Name op posop) pos).DoParameters
        (ParameterList.init compiler context)).2.defined = some (.Name op posop) ∧
      ((Tree.Postfix (.Name x posx) (.Name op posop) pos).DoParameters
        (ParameterList.init compiler context)).2.parameters
        = [⟨⟨x, posx⟩, compiler.treePtrTy⟩]) ∧
    (alphabetic op = true → context.Bound ⟨op, posop⟩ = false →
      ((Tree.Prefix (.Name x posx) (.Name op posop) pos).DoParameters
        (ParameterList.init compiler context)).1 = true ∧
      ((Tree.Prefix (.Name x posx) (.Name op posop) pos).DoParameters
        (ParameterList.init compiler context)).2.defined = some (.Name x posx) ∧
      ((Tree.Prefix (.Name x posx) (.Name op posop) pos).DoParameters
        (ParameterList.init compiler context)).2.parameters
        = [⟨⟨op, posop⟩, compiler.treePtrTy⟩]) := by
  constructor
  · simp [Tree.DoParameters, ParameterList.DoPostfix, ParameterList.DoName, ParameterList.init,
      ParameterList.EnterName_of_alphabetic, ParameterList.EnterName.rest,
      ParameterList.EnterName.loop, Name.toTree, hx, hB]
  · intro hop hBop
    simp [Tree.DoParameters, ParameterList.DoPrefix, ParameterList.DoName, ParameterList.init,
      ParameterList.EnterName_of_alphabetic, ParameterList.EnterName.rest,
      ParameterList.EnterName.loop, Tree.AsInfix, Name.toTree, hop, hBop]

/-- C22, witness: the postfix pattern `N !` and its mirror image, the prefix
pattern of the names `N` and `M`. -/
theorem Postfix_walk_order_witness :
    (((Tree.Postfix (.Name "N" 0) (.Name "!" 1) 1).DoParameters
        (ParameterList.init ⟨some 0, fun _ _ => some 1⟩ ⟨fun _ => false⟩)).1 = true ∧
      ((Tree.Postfix (.Name "N" 0) (.Name "!" 1) 1).DoParameters
        (ParameterList.init ⟨some 0, fun _ _ => some 1⟩ ⟨fun _ => false⟩)).2.defined
        = some (.Name "!" 1) ∧
      ((Tree.Postfix (.Name "N" 0) (.Name "!" 1) 1).DoParameters
        (ParameterList.init ⟨some 0, fun _ _ => some 1⟩ ⟨fun _ => false⟩)).2.parameters
        = [⟨⟨"N", 0⟩, some 0⟩]) ∧
    (((Tree.Prefix (.Name "N" 0) (.Name "M" 2) 0).DoParameters
        (ParameterList.init ⟨some 0, fun _ _ => some 1⟩ ⟨fun _ => false⟩)).1 = true ∧
      ((Tree.Prefix (.Name "N" 0) (.Name "M" 2) 0).DoParameters
        (ParameterList.init ⟨some 0, fun _ _ => some 1⟩ ⟨fun _ => false⟩)).2.defined
        = some (.Name "N" 0) ∧
      ((Tree.Prefix (.Name "N" 0) (.Name "M" 2) 0).DoParameters
        (ParameterList.init ⟨some 0, fun _ _ => some 1⟩ ⟨fun _ => false⟩)).2.parameters
        = [⟨⟨"M", 2⟩, some 0⟩]) :=
  ⟨(Postfix_walk_order ⟨some 0, fun _ _ => some 1⟩ ⟨fun _ => false⟩ "N" "!" 0 1 1
      (by decide) (by decide)).1,
    (Postfix_walk_order ⟨some 0, fun _ _ => some 1⟩ ⟨fun _ => false⟩ "N" "M" 0 2 0
      (by decide) (by decide)).2 (by decide) (by decide)⟩

/-! ## Invariants of the parameter list -/

theorem ParameterList.EnterName.rest_parameters (what : Name) (type : llvm_type)
    (globalCheck : Bool) (self : ParameterList) :
    (ParameterList.EnterName.rest what type globalCheck self).2.parameters = self.parameters ∨
      ((ParameterList.EnterName.rest what type globalCheck self).2.parameters =
          self.parameters ++ [Parameter.mk what type] ∧
        ∀ p ∈ self.parameters, p.name.value ≠ what.value) := by
  unfold ParameterList.EnterName.rest
  rw [ParameterList.EnterName.loop_eq_find]
  cases h : List.find? (fun p => decide (p.name.value = what.value)) self.parameters with
  | some p =>
    left
    simp only [Option.map_some']
    cases decide (type = self.compiler.treePtrTy ∨ type = p.type) <;> rfl
  | none =>
    simp only [Option.map_none']
    split_ifs
    · left; rfl
    · right
      refine ⟨rfl, ?_⟩
      intro p hp
      have := List.find?_eq_none.mp h p hp
      simpa using this

theorem ParameterList.EnterName_parameters_fresh (what : Name) (type : llvm_type)
    (globalCheck : Bool) (self : ParameterList) :
    (self.EnterName what type globalCheck).2.parameters = self.parameters ∨
      ((self.EnterName what type globalCheck).2.parameters =
          self.parameters ++ [Parameter.mk what type] ∧
        ∀ p ∈ self.parameters, p.name.value ≠ what.value) := by
  cases h : alphabetic what.value
  · rw [ParameterList.EnterName_of_not_alphabetic _ _ _ _ h]
    exact ParameterList.EnterName.rest_parameters what type globalCheck
      (self.Ooops "The pattern variable $1 is not a name" what.toTree)
  · rw [ParameterList.EnterName_of_alphabetic _ _ _ _ h]
    exact ParameterList.EnterName.rest_parameters what type globalCheck self

theorem ParameterList.EnterName_nodup (what : Name) (type : llvm_type) (globalCheck : Bool)
    (self : ParameterList)
    (h : (self.parameters.map (fun p => p.name.value)).Nodup) :
    ((self.EnterName what type globalCheck).2.parameters.map (fun p => p.name.value)).Nodup := by
  rcases ParameterList.EnterName_parameters_fresh what type globalCheck self with h1 | ⟨h1, h2⟩
  · rw [h1]; exact h
  · rw [h1, List.map_append, List.nodup_append]
    refine ⟨h, by simp, ?_⟩
    intro a ha hb
    simp only [List.map_cons, List.map_nil, List.mem_singleton] at hb
    obtain ⟨p, hp, rfl⟩ := List.mem_map.mp ha
    exact h2 p hp hb

/-- C23: parameter names are unique: if no two entries of the parameter list
have the same name string before a walk, then after walking any pattern tree,
whether the walk succeeds or fails, no two entries have the same name string;
in particular every list built from the initial state has pairwise distinct
names. -/
theorem parameters_names_unique (what : Tree) :
    (∀ self : ParameterList,
      (self.parameters.map (fun p => p.name.value)).Nodup →
      ((what.DoParameters self).2.parameters.map (fun p => p.name.value)).Nodup) ∧
    (∀ (compiler : Compiler) (context : Context),
      ((what.DoParameters (ParameterList.init compiler context)).2.parameters.map
        (fun p => p.name.value)).Nodup) := by
  have key : ∀ self : ParameterList,
      (self.parameters.map (fun p => p.name.value)).Nodup →
      ((what.DoParameters self).2.parameters.map (fun p => p.name.value)).Nodup :=
    Tree.DoParameters_rel
      (fun a b => (a.parameters.map (fun (p : Parameter) => p.name.value)).Nodup →
        (b.parameters.map (fun (p : Parameter) => p.name.value)).Nodup)
      (fun _ h => h) (fun _ _ _ h1 h2 h => h2 (h1 h))
      (fun _ _ h => h) (fun _ _ h => h) (fun _ _ _ h => h)
      (fun s n t g h => ParameterList.EnterName_nodup n t g s h) what
  exact ⟨key, fun compiler context => key _ (by simp [ParameterList.init])⟩

/-- C23, witness: the walk of `A + (B + A)` from the list `[(B, generic)]`
ends with the two names `B` and `A`. -/
theorem parameters_names_unique_witness :
    ((Tree.Infix "+" (.Name "A" 0) (.Infix "+" (.Name "B" 4) (.Name "A" 8) 6) 2).DoParameters
      { compiler := ⟨some 0, fun _ _ => some 1⟩, context := ⟨fun _ => false⟩,
        defined := some (.Name "f" 0), parameters := [⟨⟨"B", 1⟩, some 0⟩], returned := none,
        errors := [] }).2.parameters.map (fun p => p.name.value) = ["B", "A"] ∧
    (((Tree.Infix "+" (.Name "A" 0) (.Infix "+" (.Name "B" 4) (.Name "A" 8) 6) 2).DoParameters
      { compiler := ⟨some 0, fun _ _ => some 1⟩, context := ⟨fun _ => false⟩,
        defined := some (.Name "f" 0), parameters := [⟨⟨"B", 1⟩, some 0⟩], returned := none,
        errors := [] }).2.parameters.map (fun p => p.name.value)).Nodup :=
  ⟨by decide,
    (parameters_names_unique
      (.Infix "+" (.Name "A" 0) (.Infix "+" (.Name "B" 4) (.Name "A" 8) 6) 2)).1
      { compiler := ⟨some 0, fun _ _ => some 1⟩, context := ⟨fun _ => false⟩,
        defined := some (.Name "f" 0), parameters := [⟨⟨"B", 1⟩, some 0⟩], returned := none,
        errors := [] } (by decide)⟩

/-- C24: the parameter list is append-only: for every extractor state and
every pattern tree, the parameter list before the walk is a prefix of the
parameter list after the walk, whether the walk returns success or failure;
walking an `Integer`, `Real` or `Text` leaf succeeds and leaves the whole
state unchanged. -/
theorem parameters_append_only :
    (∀ (what : Tree) (self : ParameterList),
      self.parameters <+: (what.DoParameters self).2.parameters) ∧
    (∀ (value : longlong) (pos : tree_position) (self : ParameterList),
      (Tree.Integer value pos).DoParameters self = (true, self)) ∧
    (∀ (value : double) (pos : tree_position) (self : ParameterList),
      (Tree.Real value pos).DoParameters self = (true, self)) ∧
    (∀ (value opening closing : text) (pos : tree_position) (self : ParameterList),
      (Tree.Text value opening closing pos).DoParameters self = (true, self)) :=
  ⟨Tree.DoParameters_isPrefix, fun _ _ _ => rfl, fun _ _ _ => rfl, fun _ _ _ _ _ => rfl⟩

/-! ## Tag packing -/

theorem Tree.Position_eq (t : Tree) : t.Position = t.ctorPos % 2 ^ 61 := by
  have hk : t.ctorKind.toNat < 8 := by cases t.ctorKind <;> decide
  unfold Tree.Position Tree.tag
  rw [Tree.shiftLeft_or_kind _ _ hk, Tree.KINDBITS, Nat.shiftRight_eq_div_pow]
  generalize t.ctorKind.toNat = k at hk
  generalize t.ctorPos = p
  change ((8 * p + k) % 2 ^ 64 / 2 ^ 3 : Nat) = p % 2 ^ 61
  omega

/-- C25: tag packing with a 64-bit tag: a tree constructed with the kind `k`
and the position `pos` has `Kind() = k` and `Position() = pos mod 2^61`; hence
`Position()` returns the constructed position exactly when `pos < 2^61`, and a
tree constructed with the default position `NOWHERE` (all 64 bits set) reports
`Position() = 2^61 - 1`, which is not equal to `NOWHERE`. -/
theorem tag_packing (t : Tree) :
    t.Kind = t.ctorKind ∧
    t.Position = t.ctorPos % 2 ^ 61 ∧
    (t.Position = t.ctorPos ↔ t.ctorPos < 2 ^ 61) ∧
    (t.ctorPos = Tree.NOWHERE → t.Position = 2 ^ 61 - 1) ∧
    (2 ^ 61 - 1 : Nat) ≠ Tree.NOWHERE := by
  refine ⟨Tree.Kind_eq_ctorKind t, Tree.Position_eq t, ?_, ?_, by decide⟩
  · rw [Tree.Position_eq]
    constructor
    · intro h
      have h1 := Nat.mod_lt t.ctorPos (show 0 < 2 ^ 61 by norm_num)
      rw [h] at h1
      exact h1
    · intro h
      exact Nat.mod_eq_of_lt h
  · intro h
    rw [Tree.Position_eq, h]
    decide

/-- C25, witness: an `Integer` constructed with the default position and a
`Name` constructed at position 42. -/
theorem tag_packing_witness :
    (Tree.Integer 0 Tree.NOWHERE).Kind = kind.INTEGER ∧
    (Tree.Integer 0 Tree.NOWHERE).Position = 2 ^ 61 - 1 ∧
    (Tree.Name "A" 42).Kind = kind.NAME ∧
    (Tree.Name "A" 42).Position = 42 :=
  ⟨(tag_packing (.Integer 0 Tree.NOWHERE)).1,
    (tag_packing (.Integer 0 Tree.NOWHERE)).2.2.2.1 rfl,
    (tag_packing (.Name "A" 42)).1,
    (tag_packing (.Name "A" 42)).2.2.1.mpr (by decide)⟩

end XL
